import Mathlib

/-!
Verification development for the picture-frame-controller repository.

We give a shallow embedding of the core components:
- the SQLite-backed store (custom_components/picture_frame_controller/database_manager.py),
  modelled as pure functions over an explicit database state; SQL NULL comparison
  semantics are modelled with a three-valued logic over Option Bool;
- the media scanner (media_scanner.py), modelled over an explicit filesystem tree;
- the selection coordinator (__init__.py, PictureFrameCoordinator), modelled as
  explicit state passing; the SQL ORDER BY RANDOM() LIMIT 1 pick is modelled by
  an explicit choice index selecting from the filtered candidate list.
-/

set_option autoImplicit false

namespace PicFrame

/-- One row of the albums table (database_manager.py, _create_tables). -/
structure Album where
  id : Int
  path : String
  name : String
  year : Option Int
  month : Option Int
  created_at : Nat
deriving DecidableEq, Repr

/-- One row of the media_files table (database_manager.py, _create_tables).
seen is stored as INTEGER 0/1, modelled as Bool; last_shown as nullable timestamp. -/
structure MediaItem where
  id : Int
  album_id : Int
  filename : String
  extension : String
  is_video : Bool
  seen : Bool
  last_shown : Option Nat
deriving DecidableEq, Repr

/-- The database state: the two tables plus the autoincrement counters
that model SQLite rowid allocation. -/
structure DB where
  albums : List Album
  media : List MediaItem
  nextAlbumId : Int
  nextMediaId : Int
deriving DecidableEq, Repr

/-- A freshly created database (after _create_tables): both tables empty. -/
def emptyDB : DB := { albums := [], media := [], nextAlbumId := 1, nextMediaId := 1 }

/-! ### SQL three-valued logic

SQLite comparisons against NULL yield NULL; a WHERE clause keeps a row only
when the condition evaluates to TRUE.  We model SQL booleans as Option Bool
with none = NULL. -/

/-- SQL AND on three-valued booleans. -/
def sqlAnd : Option Bool → Option Bool → Option Bool
  | some false, _ => some false
  | _, some false => some false
  | some true, some true => some true
  | _, _ => none

/-- SQL OR on three-valued booleans. -/
def sqlOr : Option Bool → Option Bool → Option Bool
  | some true, _ => some true
  | _, some true => some true
  | some false, some false => some false
  | _, _ => none

/-- SQL comparison of a nullable column against a non-null parameter. -/
def sqlCmp (op : Int → Int → Bool) (a : Option Int) (b : Int) : Option Bool :=
  a.map (fun x => op x b)

/-- The date-range SQL condition used verbatim by get_random_unseen_media,
get_previously_shown_media and reset_seen_status:
(year > sy OR (year = sy AND month >= sm)) AND (year < ey OR (year = ey AND month <= em)),
evaluated under SQL NULL semantics on the nullable year/month columns. -/
def dateRangeSat (year month : Option Int) (sy sm ey em : Int) : Option Bool :=
  sqlAnd
    (sqlOr (sqlCmp (· > ·) year sy)
           (sqlAnd (sqlCmp (· = ·) year sy) (sqlCmp (· ≥ ·) month sm)))
    (sqlOr (sqlCmp (· < ·) year ey)
           (sqlAnd (sqlCmp (· = ·) year ey) (sqlCmp (· ≤ ·) month em)))

/-- A row passes the WHERE clause iff the condition is TRUE (not NULL, not FALSE). -/
def dateRangeHolds (year month : Option Int) (sy sm ey em : Int) : Bool :=
  dateRangeSat year month sy sm ey em = some true

/-! ### Python truthiness for the optional date-range parameters

The code guards the date-range filter with all([start_year, start_month,
end_year, end_month]): a component is truthy iff it is present and non-zero. -/

/-- Python truthiness of an optional integer (None and 0 are falsy). -/
def truthyI : Option Int → Bool
  | none => false
  | some n => n ≠ 0

/-- all([start_year, start_month, end_year, end_month]) in Python. -/
def rangeParamsActive (sy sm ey em : Option Int) : Bool :=
  truthyI sy && truthyI sm && truthyI ey && truthyI em

/-- The date-range filter as applied by the queries: active only when all
four parameters are truthy, otherwise no constraint. -/
def rangeFilter (sy sm ey em : Option Int) (ay am : Option Int) : Bool :=
  match sy, sm, ey, em with
  | some y1, some m1, some y2, some m2 =>
    if y1 ≠ 0 ∧ m1 ≠ 0 ∧ y2 ≠ 0 ∧ m2 ≠ 0 then dateRangeHolds ay am y1 m1 y2 m2 else true
  | _, _, _, _ => true

/-- String suffix test over the character lists (kernel-computable stand-in
for str.endswith). -/
def strEndsWith (s suff : String) : Bool :=
  suff.data.isSuffixOf s.data

/-- ASCII lower-casing over the character list (stand-in for str.lower on
the ASCII extensions handled here). -/
def lowerStr (s : String) : String :=
  String.mk (s.data.map Char.toLower)

/-! ### Store operations (DatabaseManager) -/

/-- DatabaseManager.add_album: look up by path; if present update
name/year/month in place and return the existing id, else insert a new row
with a fresh id. ts models datetime.now() for created_at. -/
def add_album (db : DB) (ts : Nat) (path name : String)
    (year month : Option Int) : DB × Int :=
  match db.albums.find? (fun a => a.path = path) with
  | some a =>
    ({ db with albums := db.albums.map (fun b =>
        if b.path = path then { b with name := name, year := year, month := month } else b) },
     a.id)
  | none =>
    ({ db with
        albums := db.albums ++ [{ id := db.nextAlbumId, path := path, name := name,
                                  year := year, month := month, created_at := ts }],
        nextAlbumId := db.nextAlbumId + 1 },
     db.nextAlbumId)

/-- DatabaseManager.add_media_file: look up by (album_id, filename); if present
return the existing id with the row untouched, else insert with the extension
lower-cased, seen defaulting to 0 and last_shown to NULL. -/
def add_media_file (db : DB) (album_id : Int) (filename extension : String)
    (is_video : Bool) : DB × Int :=
  match db.media.find? (fun m => m.album_id = album_id ∧ m.filename = filename) with
  | some m => (db, m.id)
  | none =>
    ({ db with
        media := db.media ++ [{ id := db.nextMediaId, album_id := album_id,
                                filename := filename, extension := lowerStr extension,
                                is_video := is_video, seen := false, last_shown := none }],
        nextMediaId := db.nextMediaId + 1 },
     db.nextMediaId)

/-- DatabaseManager.get_media_count: SELECT COUNT(*) FROM media_files. -/
def get_media_count (db : DB) : Nat := db.media.length

/-- DatabaseManager.get_unseen_count: count of seen = 0 rows, optionally
restricted to one album (no join with albums). -/
def get_unseen_count (db : DB) (album_id : Option Int) : Nat :=
  match album_id with
  | some a => (db.media.filter (fun m => m.seen = false ∧ m.album_id = a)).length
  | none => (db.media.filter (fun m => m.seen = false)).length

/-- The JOIN of media_files with albums ON m.album_id = a.id. -/
def joinRows (db : DB) : List (MediaItem × Album) :=
  db.media.flatMap (fun m =>
    (db.albums.filter (fun a => a.id = m.album_id)).map (fun a => (m, a)))

/-- The WHERE clause of get_random_unseen_media on a joined row: seen = 0,
the album filter applied when the parameter is not None, and the date-range
condition applied when all four parameters are truthy. -/
def unseenCond (album_id sy sm ey em : Option Int) (p : MediaItem × Album) : Bool :=
  decide (p.1.seen = false)
  && (match album_id with | some x => decide (p.1.album_id = x) | none => true)
  && rangeFilter sy sm ey em p.2.year p.2.month

/-- The result set of get_random_unseen_media before ORDER BY RANDOM() LIMIT 1. -/
def unseenCandidates (db : DB) (album_id : Option Int)
    (sy sm ey em : Option Int) : List (MediaItem × Album) :=
  (joinRows db).filter (unseenCond album_id sy sm ey em)

/-- DatabaseManager.get_random_unseen_media: ORDER BY RANDOM() LIMIT 1 is
modelled by an explicit choice index c selecting from the candidate list;
returns None exactly when the candidate list is empty. -/
def get_random_unseen_media (c : Nat) (db : DB) (album_id : Option Int)
    (sy sm ey em : Option Int) : Option (MediaItem × Album) :=
  let cands := unseenCandidates db album_id sy sm ey em
  cands.get? (c % cands.length)

/-- DatabaseManager.mark_media_as_seen: UPDATE media_files SET seen = 1,
last_shown = ts WHERE id = media_id. -/
def mark_media_as_seen (db : DB) (media_id : Int) (ts : Nat) : DB :=
  { db with media := db.media.map (fun m =>
      if m.id = media_id then { m with seen := true, last_shown := some ts } else m) }

/-- The result set of get_previously_shown_media before ORDER BY last_shown
DESC LIMIT 1: joined rows with last_shown NOT NULL, excluding the current
media id, with the same optional album and date-range filters. -/
def shownCandidates (db : DB) (current_media_id album_id : Option Int)
    (sy sm ey em : Option Int) : List (MediaItem × Album) :=
  (joinRows db).filter (fun p =>
    decide (p.1.last_shown ≠ none)
    && (match current_media_id with | some x => decide (p.1.id ≠ x) | none => true)
    && (match album_id with | some x => decide (p.1.album_id = x) | none => true)
    && rangeFilter sy sm ey em p.2.year p.2.month)

/-- DatabaseManager.get_previously_shown_media: the candidate with the
maximal last_shown timestamp (ORDER BY m.last_shown DESC LIMIT 1; ties broken
arbitrarily by the engine, modelled as first-wins). -/
def get_previously_shown_media (db : DB) (current_media_id album_id : Option Int)
    (sy sm ey em : Option Int) : Option (MediaItem × Album) :=
  (shownCandidates db current_media_id album_id sy sm ey em).foldl
    (fun acc p => match acc with
      | none => some p
      | some q => if p.1.last_shown.getD 0 > q.1.last_shown.getD 0 then some p else some q)
    none

/-- The WHERE album_id IN (SELECT id FROM albums WHERE date-range) condition
of the time-range branch of reset_seen_status. -/
def resetRangeCond (albums : List Album) (m : MediaItem) (sy sm ey em : Int) : Bool :=
  albums.any (fun a => a.id = m.album_id ∧ dateRangeHolds a.year a.month sy sm ey em)

/-- Setting a row back to unseen: seen = 0, last_shown = NULL. -/
def resetRow (m : MediaItem) : MediaItem := { m with seen := false, last_shown := none }

/-- DatabaseManager.reset_seen_status: album scope if album_id is not None;
else date-range scope if time_range and all four parameters truthy; else all
rows. Each branch sets seen = 0 and last_shown = NULL together. -/
def reset_seen_status (db : DB) (album_id : Option Int) (time_range : Bool)
    (sy sm ey em : Option Int) : DB :=
  match album_id with
  | some a =>
    { db with media := db.media.map (fun m => if m.album_id = a then resetRow m else m) }
  | none =>
    match time_range, sy, sm, ey, em with
    | true, some y1, some m1, some y2, some m2 =>
      if y1 ≠ 0 ∧ m1 ≠ 0 ∧ y2 ≠ 0 ∧ m2 ≠ 0 then
        { db with media := db.media.map (fun m =>
            if resetRangeCond db.albums m y1 m1 y2 m2 then resetRow m else m) }
      else
        { db with media := db.media.map resetRow }
    | _, _, _, _, _ =>
      { db with media := db.media.map resetRow }

/-- DatabaseManager.get_album_by_id: point lookup. -/
def get_album_by_id (db : DB) (album_id : Int) : Option Album :=
  db.albums.find? (fun a => a.id = album_id)

/-- DatabaseManager.get_album_by_path: point lookup. -/
def get_album_by_path (db : DB) (path : String) : Option Album :=
  db.albums.find? (fun a => a.path = path)

/-- DatabaseManager.get_media_by_id: point lookup through the join. -/
def get_media_by_id (db : DB) (media_id : Int) : Option (MediaItem × Album) :=
  (joinRows db).find? (fun p => p.1.id = media_id)

/-! ### Store operation sequences

Reachable database states are those produced by applying the public mutating
operations starting from a fresh database. -/

/-- A public mutating Store operation. -/
inductive StoreOp where
  | addAlbum (ts : Nat) (path name : String) (year month : Option Int)
  | addMedia (album_id : Int) (filename extension : String) (is_video : Bool)
  | markSeen (media_id : Int) (ts : Nat)
  | resetSeen (album_id : Option Int) (time_range : Bool) (sy sm ey em : Option Int)
deriving DecidableEq, Repr

/-- Apply one Store operation to the database state. -/
def applyOp (db : DB) : StoreOp → DB
  | .addAlbum ts p n y m => (add_album db ts p n y m).1
  | .addMedia a f e v => (add_media_file db a f e v).1
  | .markSeen i ts => mark_media_as_seen db i ts
  | .resetSeen a tr sy sm ey em => reset_seen_status db a tr sy sm ey em

/-- Apply a sequence of Store operations from left to right. -/
def runOps (db : DB) : List StoreOp → DB
  | [] => db
  | op :: rest => runOps (applyOp db op) rest

/-! ### Coordinator (PictureFrameCoordinator, __init__.py) -/

/-- The coordinator's _time_range dictionary. -/
structure TimeRange where
  start_year : Option Int
  start_month : Option Int
  end_year : Option Int
  end_month : Option Int
deriving DecidableEq, Repr

/-- all(self._time_range.values()) in Python (truthiness of the four values). -/
def TimeRange.active (tr : TimeRange) : Bool :=
  rangeParamsActive tr.start_year tr.start_month tr.end_year tr.end_month

/-- The fully cleared time range. -/
def TimeRange.clear : TimeRange := ⟨none, none, none, none⟩

/-- The coordinator filter state relevant to _get_next_media. -/
structure CoordState where
  album_filter : Option Int
  time_range : TimeRange
deriving DecidableEq, Repr

/-- PictureFrameCoordinator._get_next_media: query with the active filters;
on an empty result reset a scope and retry once, preferring the album scope,
then the date-range scope, then everything.  c1 and c2 are the choice indices
for the two ORDER BY RANDOM() picks. -/
def get_next_media (c1 c2 : Nat) (st : CoordState) (db : DB) :
    DB × Option (MediaItem × Album) :=
  match get_random_unseen_media c1 db st.album_filter
      st.time_range.start_year st.time_range.start_month
      st.time_range.end_year st.time_range.end_month with
  | some m => (db, some m)
  | none =>
    match st.album_filter with
    | some a =>
      let db2 := reset_seen_status db (some a) false none none none none
      (db2, get_random_unseen_media c2 db2 (some a) none none none none)
    | none =>
      if st.time_range.active then
        let db2 := reset_seen_status db none true
          st.time_range.start_year st.time_range.start_month
          st.time_range.end_year st.time_range.end_month
        (db2, get_random_unseen_media c2 db2 none
          st.time_range.start_year st.time_range.start_month
          st.time_range.end_year st.time_range.end_month)
      else
        let db2 := reset_seen_status db none false none none none none
        (db2, get_random_unseen_media c2 db2 none none none none none)

/-- One select-then-mark-seen cycle: _get_next_media followed by
mark_media_as_seen on the returned item (the coordinator marks a newly
selected item as seen). -/
def selectMarkCycle (c1 c2 ts : Nat) (st : CoordState) (db : DB) : DB :=
  match get_next_media c1 c2 st db with
  | (db2, some m) => mark_media_as_seen db2 m.1.id ts
  | (db2, none) => db2

/-- Iterated select-then-mark-seen cycles, one (c1, c2, ts) triple per cycle. -/
def runCycles (st : CoordState) : List (Nat × Nat × Nat) → DB → DB
  | [], db => db
  | (c1, c2, ts) :: rest, db => runCycles st rest (selectMarkCycle c1 c2 ts st db)

/-! ### Media scanner (media_scanner.py) -/

/-- A directory tree: name, subdirectories, plain files (by name). -/
inductive FSTree where
  | node (dirName : String) (subdirs : List FSTree) (files : List String)

/-- The directory name of a tree node. -/
def FSTree.getName : FSTree → String
  | .node n _ _ => n

/-- The subdirectories of a tree node. -/
def FSTree.getSubdirs : FSTree → List FSTree
  | .node _ s _ => s

/-- The plain files of a tree node. -/
def FSTree.getFiles : FSTree → List String
  | .node _ _ f => f

/-- Scanner configuration: extension allowlists (lower-cased on construction
in MediaScanner.__init__) and the compiled exclusion patterns, modelled as a
search predicate on directory names. -/
structure ScannerCfg where
  image_extensions : List String
  video_extensions : List String
  exclude : String → Bool

/-- os.path.basename for the paths the scanner builds (the part after the
last slash). -/
def baseName (p : String) : String :=
  String.mk ((p.data.reverse.takeWhile (fun c => c ≠ '/')).reverse)

/-- os.path.join with a relative second component. -/
def joinPath (a b : String) : String :=
  if a = "" then b
  else if strEndsWith a "/" then a ++ b
  else a ++ "/" ++ b

/-- ASCII decimal value of a digit character. -/
def digitVal (c : Char) : Int := ((c.toNat - '0'.toNat : Nat) : Int)

/-- A separator character of ALBUM_PATTERN: the character class [-_]. -/
def isSepChar (c : Char) : Bool := c = '-' || c = '_'

/-- Matching (.*)$ in Python re semantics against the remainder of the
string: the dot does not match a newline, and $ matches at the end of the
string or just before one final trailing newline. -/
def matchTailGroup (rest : List Char) : Option (List Char) :=
  if rest.contains '\n' = false then some rest
  else if rest.getLast? = some '\n' && rest.dropLast.contains '\n' = false then
    some rest.dropLast
  else none

/-- ALBUM_PATTERN.match on the character list: four digits, a separator
from [-_], two digits, another separator, then (.*)$. -/
def parseAlbumChars : List Char → Option (Int × Int × String)
  | d1 :: d2 :: d3 :: d4 :: s1 :: e1 :: e2 :: s2 :: rest =>
    if d1.isDigit && d2.isDigit && d3.isDigit && d4.isDigit && isSepChar s1
        && e1.isDigit && e2.isDigit && isSepChar s2 then
      match matchTailGroup rest with
      | some g3 =>
        some (1000 * digitVal d1 + 100 * digitVal d2 + 10 * digitVal d3 + digitVal d4,
              10 * digitVal e1 + digitVal e2, String.mk g3)
      | none => none
    else none
  | _ => none

/-- ALBUM_PATTERN.match: the compiled regular expression
^(4 digits)[-_](2 digits)[-_](.*)$ applied to a folder base name;
on a match, returns (int of group 1, int of group 2, group 3). -/
def parseAlbumName (s : String) : Option (Int × Int × String) :=
  parseAlbumChars s.data

/-- The album name/year/month a folder base name yields
(MediaScanner._process_album_folder, lines 114-123). -/
def albumFields (folder : String) : String × Option Int × Option Int :=
  match parseAlbumName folder with
  | some (y, m, n) => (n, some y, some m)
  | none => (folder, none, none)

/-- os.path.splitext(name)[1]: the suffix starting at the last dot, empty
when there is no dot or every character before the last dot is itself a dot
(leading-dots rule for hidden files). -/
def extOf (fname : String) : String :=
  let cs := fname.data
  if cs.contains '.' then
    let t := (cs.reverse.takeWhile (fun c => c ≠ '.')).length
    let d := cs.length - t - 1
    if (cs.take d).any (fun c => c ≠ '.') then String.mk (cs.drop d) else ""
  else ""

/-- One file of the per-album scan loop: classify by lower-cased extension
against the image allowlist first, then the video allowlist; files matching
neither are ignored; a qualifying file is upserted and collected when the
upsert did not soft-fail. -/
def processFile (cfg : ScannerCfg) (aid : Int)
    (acc : DB × List (Int × String × Bool)) (f : String) :
    DB × List (Int × String × Bool) :=
  let e := lowerStr (extOf f)
  if cfg.image_extensions.contains e then
    let mr := add_media_file acc.1 aid f e false
    (mr.1, if mr.2 ≠ -1 then acc.2 ++ [(mr.2, f, false)] else acc.2)
  else if cfg.video_extensions.contains e then
    let mr := add_media_file acc.1 aid f e true
    (mr.1, if mr.2 ≠ -1 then acc.2 ++ [(mr.2, f, true)] else acc.2)
  else acc

/-- MediaScanner._process_album_folder: parse the folder name, upsert the
album, then upsert each qualifying file.  Returns the new database state,
the album id (none when the album upsert failed) and the collected media
entries (id, filename, is_video). -/
def processAlbumFolder (cfg : ScannerCfg) (ts : Nat) (db : DB) (folderPath : String)
    (files : List String) : DB × Option Int × List (Int × String × Bool) :=
  let r := albumFields (baseName folderPath)
  let ar := add_album db ts folderPath r.1 r.2.1 r.2.2
  if ar.2 = -1 then (ar.1, none, [])
  else
    let fr := files.foldl (processFile cfg ar.2) (ar.1, [])
    (fr.1, some ar.2, fr.2)

/-- The entry a processed album contributes to the recursive-scan result list:
appended only when the album upsert succeeded and there is at least one
media file (the Python truthiness check if album_info and media_files). -/
def albumResult (aid : Option Int) (ms : List (Int × String × Bool)) :
    List (Int × List (Int × String × Bool)) :=
  match aid with
  | some a => if ms.isEmpty then [] else [(a, ms)]
  | none => []

/-- MediaScanner._scan_recursive, one os.walk node: prune excluded
subdirectory names; a node with no remaining subdirectories is a leaf/album
folder and is processed, otherwise only its kept subdirectories are walked
(the nested helper walks a list of subdirectories, skipping excluded names). -/
def walkScan (cfg : ScannerCfg) (ts : Nat) : FSTree → String → DB →
    DB × List (Int × List (Int × String × Bool))
  | .node _ subs files, curPath, db =>
    if subs.all (fun c => cfg.exclude c.getName) then
      let r := processAlbumFolder cfg ts db curPath files
      (r.1, albumResult r.2.1 r.2.2)
    else
      walkList subs curPath db
where
  walkList : List FSTree → String → DB → DB × List (Int × List (Int × String × Bool))
  | [], _, db => (db, [])
  | c :: rest, curPath, db =>
    if cfg.exclude c.getName then walkList rest curPath db
    else
      let r1 := walkScan cfg ts c (joinPath curPath c.getName) db
      let r2 := walkList rest curPath r1.1
      (r2.1, r1.2 ++ r2.2)

/-- One scandir entry of _scan_current_level: a non-excluded directory is
processed as an album folder (no leaf check). -/
def processCurrent (cfg : ScannerCfg) (ts : Nat) (base : String)
    (acc : DB × List (Int × List (Int × String × Bool))) (c : FSTree) :
    DB × List (Int × List (Int × String × Bool)) :=
  if cfg.exclude c.getName then acc
  else
    let r := processAlbumFolder cfg ts acc.1 (joinPath base c.getName) c.getFiles
    (r.1, acc.2 ++ albumResult r.2.1 r.2.2)

/-- MediaScanner._scan_current_level: process every non-excluded immediate
subdirectory of the base path as an album folder (no leaf check). -/
def scanCurrentLevel (cfg : ScannerCfg) (ts : Nat) (t : FSTree) (base : String)
    (db : DB) : DB × List (Int × List (Int × String × Bool)) :=
  t.getSubdirs.foldl (processCurrent cfg ts base) (db, [])

/-- Path-specification suffix dispatch in MediaScanner.scan: a trailing **
(checked first) or no suffix means recursive, a trailing single * means
current level only; the suffix is stripped from the base path. -/
def stripPathSpec (p : String) : String × Bool :=
  if strEndsWith p "**" then (String.mk p.data.dropLast.dropLast, true)
  else if strEndsWith p "*" then (String.mk p.data.dropLast, false)
  else (p, true)

/-- One configured root in MediaScanner.scan: resolve the base path against
the filesystem (a missing directory is skipped with a warning), walk it, and
report (albums counted, media files counted) from the result list. -/
def scanRoot (cfg : ScannerCfg) (ts : Nat) (fs : List (String × FSTree)) (db : DB)
    (pathSpec : String) : DB × Nat × Nat :=
  let sp := stripPathSpec pathSpec
  match fs.find? (fun e => e.1 = sp.1) with
  | none => (db, 0, 0)
  | some e =>
    let r := if sp.2 then walkScan cfg ts e.2 sp.1 db
             else scanCurrentLevel cfg ts e.2 sp.1 db
    (r.1, r.2.length, (r.2.map (fun x => x.2.length)).sum)

/-- One configured root of MediaScanner.scan: scan it from the accumulated
database state and add its counts. -/
def scanStep (cfg : ScannerCfg) (ts : Nat) (fs : List (String × FSTree))
    (acc : DB × Nat × Nat) (p : String) : DB × Nat × Nat :=
  let r := scanRoot cfg ts fs acc.1 p
  (r.1, acc.2.1 + r.2.1, acc.2.2 + r.2.2)

/-- MediaScanner.scan: iterate the configured roots, summing counts. -/
def scan (cfg : ScannerCfg) (ts : Nat) (fs : List (String × FSTree))
    (paths : List String) (db : DB) : DB × Nat × Nat :=
  paths.foldl (scanStep cfg ts fs) (db, 0, 0)

/-! ### Fault-injected Store operations

Every DatabaseManager method wraps its SQL in try/except sqlite3.Error; the
except branch logs, rolls back any uncommitted statements and returns a safe
default.  Since each method commits only at its very end, a storage fault at
any point of the method leaves the committed state exactly as it was before
the call; the fault flag models whether such an error occurred during the
call. -/

/-- add_album with a storage fault: rollback, sentinel id -1. -/
def add_album_f (fault : Bool) (db : DB) (ts : Nat) (path name : String)
    (year month : Option Int) : DB × Int :=
  if fault then (db, -1) else add_album db ts path name year month

/-- add_media_file with a storage fault: rollback, sentinel id -1. -/
def add_media_file_f (fault : Bool) (db : DB) (album_id : Int)
    (filename extension : String) (is_video : Bool) : DB × Int :=
  if fault then (db, -1) else add_media_file db album_id filename extension is_video

/-- get_media_count with a storage fault: 0. -/
def get_media_count_f (fault : Bool) (db : DB) : Nat :=
  if fault then 0 else get_media_count db

/-- get_unseen_count with a storage fault: 0. -/
def get_unseen_count_f (fault : Bool) (db : DB) (album_id : Option Int) : Nat :=
  if fault then 0 else get_unseen_count db album_id

/-- get_random_unseen_media with a storage fault: None. -/
def get_random_unseen_media_f (fault : Bool) (c : Nat) (db : DB)
    (album_id sy sm ey em : Option Int) : Option (MediaItem × Album) :=
  if fault then none else get_random_unseen_media c db album_id sy sm ey em

/-- get_previously_shown_media with a storage fault: None. -/
def get_previously_shown_media_f (fault : Bool) (db : DB)
    (current_media_id album_id sy sm ey em : Option Int) : Option (MediaItem × Album) :=
  if fault then none else get_previously_shown_media db current_media_id album_id sy sm ey em

/-- get_album_by_id with a storage fault: None. -/
def get_album_by_id_f (fault : Bool) (db : DB) (album_id : Int) : Option Album :=
  if fault then none else get_album_by_id db album_id

/-- get_album_by_path with a storage fault: None. -/
def get_album_by_path_f (fault : Bool) (db : DB) (path : String) : Option Album :=
  if fault then none else get_album_by_path db path

/-- get_media_by_id with a storage fault: None. -/
def get_media_by_id_f (fault : Bool) (db : DB) (media_id : Int) : Option (MediaItem × Album) :=
  if fault then none else get_media_by_id db media_id

/-- mark_media_as_seen with a storage fault: rollback, no-op. -/
def mark_media_as_seen_f (fault : Bool) (db : DB) (media_id : Int) (ts : Nat) : DB :=
  if fault then db else mark_media_as_seen db media_id ts

/-- reset_seen_status with a storage fault: rollback, no-op. -/
def reset_seen_status_f (fault : Bool) (db : DB) (album_id : Option Int)
    (time_range : Bool) (sy sm ey em : Option Int) : DB :=
  if fault then db else reset_seen_status db album_id time_range sy sm ey em

/-! ## Helper lemmas on the three-valued logic -/

lemma sqlAnd_some_some (a b : Bool) : sqlAnd (some a) (some b) = some (a && b) := by
  cases a <;> cases b <;> rfl

lemma sqlOr_some_some (a b : Bool) : sqlOr (some a) (some b) = some (a || b) := by
  cases a <;> cases b <;> rfl

lemma sqlAnd_eq_some_true {x y : Option Bool} (h : sqlAnd x y = some true) :
    x = some true ∧ y = some true := by
  revert h; revert x y; decide

lemma sqlAnd_some_true_some_true {x y : Option Bool} (hx : x = some true)
    (hy : y = some true) : sqlAnd x y = some true := by
  subst hx; subst hy; rfl

lemma sqlOr_none_left {y : Option Bool} (h : sqlOr none y = some true) : y = some true := by
  revert h; revert y; decide

lemma sqlAnd_none_left {y : Option Bool} : sqlAnd none y ≠ some true := by
  revert y; decide

/-- On fully non-null year/month the SQL condition computes to the plain
boolean combination. -/
lemma dateRangeSat_some_some (y m sy sm ey em : Int) :
    dateRangeSat (some y) (some m) sy sm ey em =
      some ((decide (y > sy) || (decide (y = sy) && decide (m ≥ sm)))
        && (decide (y < ey) || (decide (y = ey) && decide (m ≤ em)))) := by
  simp [dateRangeSat, sqlCmp, sqlAnd_some_some, sqlOr_some_some]

/-- A NULL year never satisfies the date-range condition. -/
lemma dateRangeSat_none_year (mo : Option Int) (sy sm ey em : Int) :
    dateRangeSat none mo sy sm ey em ≠ some true := by
  intro h
  have h1 := (sqlAnd_eq_some_true h).1
  have h2 := sqlOr_none_left (by
    simpa [dateRangeSat, sqlCmp] using h1)
  exact sqlAnd_none_left h2

/-- With a non-null year and NULL month the condition holds exactly when the
year lies strictly between the two endpoint years. -/
lemma dateRangeSat_some_none (y sy sm ey em : Int) :
    dateRangeSat (some y) none sy sm ey em = some true ↔ sy < y ∧ y < ey := by
  cases hgt : decide (y > sy) <;> cases heq : decide (y = sy) <;>
    cases hlt : decide (y < ey) <;> cases heq2 : decide (y = ey) <;>
      simp only [dateRangeSat, sqlCmp, Option.map_some', Option.map_none',
        hgt, heq, hlt, heq2] <;>
      simp_all [sqlAnd, sqlOr]

/-- C6: the date-range condition of the filtered queries, on albums with
non-null year and month, is the inclusive lexicographic (year, month)
interval; in particular (2021, 6) is inside [(2020,1), (2022,12)] and outside
[(2021,7), (2022,12)]. -/
theorem claim_C6_date_range_lexicographic :
    (∀ y m sy sm ey em : Int,
      dateRangeHolds (some y) (some m) sy sm ey em = true ↔
        ((sy < y ∨ (sy = y ∧ sm ≤ m)) ∧ (y < ey ∨ (y = ey ∧ m ≤ em))))
    ∧ dateRangeHolds (some 2021) (some 6) 2020 1 2022 12 = true
    ∧ dateRangeHolds (some 2021) (some 6) 2021 7 2022 12 = false := by
  refine ⟨fun y m sy sm ey em => ?_, by decide, by decide⟩
  simp only [dateRangeHolds, dateRangeSat_some_some, decide_eq_true_eq,
    Option.some.injEq, Bool.and_eq_true, Bool.or_eq_true, decide_eq_true_eq]
  constructor
  · rintro ⟨h1, h2⟩; omega
  · rintro ⟨h1, h2⟩; omega

/-! ## Generic facts about the pick operations -/

/-- A successful random pick is an element of the candidate list. -/
lemma get_random_unseen_media_mem {c : Nat} {db : DB} {aid sy sm ey em : Option Int}
    {p : MediaItem × Album} (h : get_random_unseen_media c db aid sy sm ey em = some p) :
    p ∈ unseenCandidates db aid sy sm ey em := by
  exact List.get?_mem h

/-- The most-recently-shown fold yields an element of the list or the seed. -/
lemma maxShownFold_mem :
    ∀ (l : List (MediaItem × Album)) (acc : Option (MediaItem × Album))
      (p : MediaItem × Album),
      l.foldl (fun acc q => match acc with
        | none => some q
        | some r => if q.1.last_shown.getD 0 > r.1.last_shown.getD 0 then some q else some r)
        acc = some p →
      p ∈ l ∨ acc = some p
  | [], _, p, h => Or.inr h
  | x :: xs, acc, p, h => by
    rcases maxShownFold_mem xs _ p h with h2 | h2
    · exact Or.inl (List.mem_cons_of_mem _ h2)
    · match acc with
      | none =>
        simp only at h2
        obtain rfl : x = p := Option.some.inj h2
        exact Or.inl (List.mem_cons_self x xs)
      | some r =>
        simp only at h2
        by_cases hc : x.1.last_shown.getD 0 > r.1.last_shown.getD 0
        · rw [if_pos hc] at h2
          obtain rfl : x = p := Option.some.inj h2
          exact Or.inl (List.mem_cons_self x xs)
        · rw [if_neg hc] at h2
          exact Or.inr h2

/-- A successful most-recently-shown pick is an element of the candidate list. -/
lemma get_previously_shown_media_mem {db : DB} {cid aid sy sm ey em : Option Int}
    {p : MediaItem × Album}
    (h : get_previously_shown_media db cid aid sy sm ey em = some p) :
    p ∈ shownCandidates db cid aid sy sm ey em := by
  rcases maxShownFold_mem _ _ _ h with h2 | h2
  · exact h2
  · cases h2

/-- When all four parameters are non-zero the range filter is exactly the
date-range condition. -/
lemma rangeFilter_active (sy sm ey em : Int) (hsy : sy ≠ 0) (hsm : sm ≠ 0)
    (hey : ey ≠ 0) (hem : em ≠ 0) (ay am : Option Int) :
    rangeFilter (some sy) (some sm) (some ey) (some em) ay am =
      dateRangeHolds ay am sy sm ey em := by
  simp [rangeFilter, hsy, hsm, hey, hem]

/-! ## C10: NULL year/month albums under the date-range condition -/

/-- An album with a non-null year but NULL month. -/
def aNullMonth : Album :=
  { id := 1, path := "/p", name := "a", year := some 2021, month := none, created_at := 0 }

/-- An unseen media item in that album. -/
def mNullMonth : MediaItem :=
  { id := 1, album_id := 1, filename := "x.jpg", extension := ".jpg",
    is_video := false, seen := false, last_shown := none }

/-- A database holding exactly that album and item. -/
def dbNullMonth : DB :=
  { albums := [aNullMonth], media := [mNullMonth], nextAlbumId := 2, nextMediaId := 2 }

/-- C10 (counterexample): the claim says a date-range-filtered pick never
returns an item of an album whose year or month is NULL; but with the range
[(2020,1), (2022,12)] active, the pick returns the item of the album with
year 2021 and NULL month, because year > 2020 and year < 2022 already make
the SQL condition TRUE. -/
theorem claim_C10_counterexample :
    get_random_unseen_media 0 dbNullMonth none (some 2020) (some 1) (some 2022) (some 12)
      = some (mNullMonth, aNullMonth)
    ∧ aNullMonth.month = none := by
  constructor
  · rfl
  · rfl

/-- C10 (amended): an album with a NULL year never satisfies the date-range
condition, so date-filtered picks never return its items and a date-scoped
reset never touches its rows; but an album with a non-null year and NULL
month satisfies the condition exactly when its year is strictly between the
two endpoint years. -/
theorem claim_C10_amended_null_year_excluded :
    (∀ (mo : Option Int) (sy sm ey em : Int),
      dateRangeHolds none mo sy sm ey em = false)
    ∧ (∀ (y sy sm ey em : Int),
      dateRangeHolds (some y) none sy sm ey em = true ↔ sy < y ∧ y < ey)
    ∧ (∀ (c : Nat) (db : DB) (sy sm ey em : Int) (p : MediaItem × Album),
      sy ≠ 0 → sm ≠ 0 → ey ≠ 0 → em ≠ 0 →
      get_random_unseen_media c db none (some sy) (some sm) (some ey) (some em) = some p →
      p.2.year ≠ none)
    ∧ (∀ (db : DB) (cid : Option Int) (sy sm ey em : Int) (p : MediaItem × Album),
      sy ≠ 0 → sm ≠ 0 → ey ≠ 0 → em ≠ 0 →
      get_previously_shown_media db cid none (some sy) (some sm) (some ey) (some em) = some p →
      p.2.year ≠ none)
    ∧ (∀ (db : DB) (sy sm ey em : Int) (m : MediaItem),
      sy ≠ 0 → sm ≠ 0 → ey ≠ 0 → em ≠ 0 →
      m ∈ db.media →
      (∀ a ∈ db.albums, a.id = m.album_id → a.year = none) →
      m ∈ (reset_seen_status db none true (some sy) (some sm) (some ey) (some em)).media) := by
  have hnone : ∀ (mo : Option Int) (sy sm ey em : Int),
      dateRangeHolds none mo sy sm ey em = false := by
    intro mo sy sm ey em
    simp only [dateRangeHolds, decide_eq_false_iff_not]
    exact dateRangeSat_none_year mo sy sm ey em
  refine ⟨hnone, ?_, ?_, ?_, ?_⟩
  · intro y sy sm ey em
    simp only [dateRangeHolds, decide_eq_true_eq]
    exact dateRangeSat_some_none y sy sm ey em
  · intro c db sy sm ey em p hsy hsm hey hem h hyear
    have hp := get_random_unseen_media_mem h
    have hcond := List.of_mem_filter hp
    simp only [unseenCond, Bool.and_eq_true] at hcond
    have h3 := hcond.2
    rw [rangeFilter_active sy sm ey em hsy hsm hey hem] at h3
    rw [hyear, hnone] at h3
    cases h3
  · intro db cid sy sm ey em p hsy hsm hey hem h hyear
    have hp := get_previously_shown_media_mem h
    have hcond := List.of_mem_filter hp
    simp only [Bool.and_eq_true] at hcond
    have h3 := hcond.2
    rw [rangeFilter_active sy sm ey em hsy hsm hey hem] at h3
    rw [hyear, hnone] at h3
    cases h3
  · intro db sy sm ey em m hsy hsm hey hem hm hnull
    have hcond : resetRangeCond db.albums m sy sm ey em = false := by
      simp only [resetRangeCond, List.any_eq_false]
      intro a ha
      simp only [Bool.and_eq_true, decide_eq_true_eq, not_and]
      intro hid
      rw [hnull a ha hid, hnone]
      simp
    have hmem : m ∈ (db.media.map (fun x =>
        if resetRangeCond db.albums x sy sm ey em then resetRow x else x)) := by
      refine List.mem_map.mpr ⟨m, hm, ?_⟩
      rw [hcond]
      simp
    simpa [reset_seen_status, hsy, hsm, hey, hem] using hmem

/-! ## C4: scan idempotence -/

/-- Whether a file name qualifies as media under the configuration. -/
def qualifies (cfg : ScannerCfg) (f : String) : Bool :=
  cfg.image_extensions.contains (lowerStr (extOf f))
  || cfg.video_extensions.contains (lowerStr (extOf f))

/-- Well-formedness used by the scan-idempotence argument: album paths are
unique (the UNIQUE constraint) and album ids are positive rowids. -/
def ScanOk (db : DB) : Prop :=
  (db.albums.map (fun a => a.path)).Nodup
  ∧ (∀ a ∈ db.albums, 1 ≤ a.id)
  ∧ 1 ≤ db.nextAlbumId

/-- The album folder (path, files) is fully recorded in the database: its
album row exists with the parsed metadata and every qualifying file has a
media row under that album. -/
def AScanned (cfg : ScannerCfg) (db : DB) (path : String) (files : List String) : Prop :=
  ∃ a ∈ db.albums,
    a.path = path
    ∧ a.name = (albumFields (baseName path)).1
    ∧ a.year = (albumFields (baseName path)).2.1
    ∧ a.month = (albumFields (baseName path)).2.2
    ∧ ∀ f ∈ files, qualifies cfg f = true →
        ∃ m ∈ db.media, m.album_id = a.id ∧ m.filename = f

/-- Rows with a given path found by find? are the unique such row when
paths are distinct. -/
lemma find_path_eq {db : DB} {p : String} {a : Album}
    (hnodup : (db.albums.map (fun a => a.path)).Nodup)
    (ha : a ∈ db.albums) (hpath : a.path = p) :
    db.albums.find? (fun b => b.path = p) = some a := by
  cases hfind : db.albums.find? (fun b => b.path = p) with
  | none =>
    exfalso
    have := List.find?_eq_none.mp hfind a ha
    simp [hpath] at this
  | some b =>
    have hbp : b.path = p := by
      have := List.find?_some hfind
      simpa using this
    have hbm : b ∈ db.albums := List.mem_of_find?_eq_some hfind
    have hba : b = a :=
      List.inj_on_of_nodup_map hnodup hbm ha (by rw [hbp, hpath])
    rw [hba]

/-- add_album on an already-recorded path with its already-stored values is
the identity returning the stored id. -/
lemma add_album_found {db : DB} {ts : Nat} {p : String} {a : Album}
    (hnodup : (db.albums.map (fun a => a.path)).Nodup)
    (ha : a ∈ db.albums) (hpath : a.path = p) :
    add_album db ts p a.name a.year a.month = (db, a.id) := by
  unfold add_album
  rw [find_path_eq hnodup ha hpath]
  have hmap : db.albums.map (fun b =>
      if b.path = p then { b with name := a.name, year := a.year, month := a.month }
      else b) = db.albums := by
    rw [List.map_congr_left (fun b hb => ?_), List.map_id]
    by_cases hbp : b.path = p
    · have hba : b = a :=
        List.inj_on_of_nodup_map hnodup hb ha (by rw [hbp, hpath])
      subst hba
      rw [if_pos hbp]
      rfl
    · rw [if_neg hbp]
      rfl
  rw [hmap]

/-- add_media_file on an already-recorded (album_id, filename) leaves the
database unchanged and returns an existing id. -/
lemma add_media_file_found {db : DB} {aid : Int} {f e : String} {v : Bool}
    (h : ∃ m ∈ db.media, m.album_id = aid ∧ m.filename = f) :
    ∃ m0 ∈ db.media, m0.album_id = aid ∧ m0.filename = f ∧
      add_media_file db aid f e v = (db, m0.id) := by
  obtain ⟨m, hm, hma, hmf⟩ := h
  cases hfind : db.media.find? (fun x => x.album_id = aid ∧ x.filename = f) with
  | none =>
    exfalso
    have := List.find?_eq_none.mp hfind m hm
    simp [hma, hmf] at this
  | some m0 =>
    have hm0 := List.find?_some hfind
    simp only [Bool.and_eq_true, decide_eq_true_eq] at hm0
    refine ⟨m0, List.mem_of_find?_eq_some hfind, hm0.1, hm0.2, ?_⟩
    unfold add_media_file
    rw [hfind]

/-- add_media_file never removes media rows. -/
lemma add_media_file_media_mono {db : DB} {aid : Int} {f e : String} {v : Bool}
    {m : MediaItem} (hm : m ∈ db.media) :
    m ∈ (add_media_file db aid f e v).1.media := by
  unfold add_media_file
  cases hfind : db.media.find? (fun x => x.album_id = aid ∧ x.filename = f) with
  | none => simp [hm]
  | some m0 => simpa using hm

/-- add_media_file keeps the albums table. -/
lemma add_media_file_albums {db : DB} (aid : Int) (f e : String) (v : Bool) :
    (add_media_file db aid f e v).1.albums = db.albums := by
  unfold add_media_file
  cases hfind : db.media.find? (fun x => x.album_id = aid ∧ x.filename = f) with
  | none => rfl
  | some m0 => rfl

/-- add_media_file keeps the album-id counter. -/
lemma add_media_file_nextAlbumId {db : DB} (aid : Int) (f e : String) (v : Bool) :
    (add_media_file db aid f e v).1.nextAlbumId = db.nextAlbumId := by
  unfold add_media_file
  cases hfind : db.media.find? (fun x => x.album_id = aid ∧ x.filename = f) with
  | none => rfl
  | some m0 => rfl

/-- add_media_file records its (album_id, filename) pair. -/
lemma add_media_file_establishes (db : DB) (aid : Int) (f e : String) (v : Bool) :
    ∃ m ∈ (add_media_file db aid f e v).1.media,
      m.album_id = aid ∧ m.filename = f := by
  unfold add_media_file
  cases hfind : db.media.find? (fun x => x.album_id = aid ∧ x.filename = f) with
  | none =>
    refine ⟨{ id := db.nextMediaId, album_id := aid, filename := f,
              extension := lowerStr e, is_video := v, seen := false, last_shown := none },
      ?_, rfl, rfl⟩
    simp
  | some m0 =>
    have hm0 := List.find?_some hfind
    simp only [Bool.and_eq_true, decide_eq_true_eq] at hm0
    exact ⟨m0, List.mem_of_find?_eq_some hfind, hm0.1, hm0.2⟩

lemma processFile_albums (cfg : ScannerCfg) (aid : Int)
    (acc : DB × List (Int × String × Bool)) (f : String) :
    (processFile cfg aid acc f).1.albums = acc.1.albums := by
  unfold processFile
  dsimp only
  split
  · exact add_media_file_albums _ _ _ _
  · split
    · exact add_media_file_albums _ _ _ _
    · rfl

lemma processFile_nextAlbumId (cfg : ScannerCfg) (aid : Int)
    (acc : DB × List (Int × String × Bool)) (f : String) :
    (processFile cfg aid acc f).1.nextAlbumId = acc.1.nextAlbumId := by
  unfold processFile
  dsimp only
  split
  · exact add_media_file_nextAlbumId _ _ _ _
  · split
    · exact add_media_file_nextAlbumId _ _ _ _
    · rfl

lemma processFile_media_mono (cfg : ScannerCfg) (aid : Int)
    (acc : DB × List (Int × String × Bool)) (f : String)
    {m : MediaItem} (hm : m ∈ acc.1.media) :
    m ∈ (processFile cfg aid acc f).1.media := by
  unfold processFile
  dsimp only
  split
  · exact add_media_file_media_mono hm
  · split
    · exact add_media_file_media_mono hm
    · exact hm

lemma processFile_establishes (cfg : ScannerCfg) (aid : Int)
    (acc : DB × List (Int × String × Bool)) (f : String)
    (hq : qualifies cfg f = true) :
    ∃ m ∈ (processFile cfg aid acc f).1.media, m.album_id = aid ∧ m.filename = f := by
  unfold processFile
  dsimp only
  split
  · exact add_media_file_establishes _ _ _ _ _
  · split
    · exact add_media_file_establishes _ _ _ _ _
    · next h1 h2 =>
      exfalso
      rw [qualifies] at hq
      simp only [Bool.or_eq_true] at hq
      rcases hq with hq | hq
      · exact h1 hq
      · exact h2 hq

lemma processFile_fixed (cfg : ScannerCfg) (aid : Int)
    (acc : DB × List (Int × String × Bool)) (f : String)
    (h : qualifies cfg f = true → ∃ m ∈ acc.1.media, m.album_id = aid ∧ m.filename = f) :
    (processFile cfg aid acc f).1 = acc.1 := by
  unfold processFile
  dsimp only
  split
  · next himg =>
    obtain ⟨m0, _, _, _, heq⟩ := add_media_file_found (h (by
      unfold qualifies; rw [himg]; simp))
    rw [heq]
  · split
    · next hvid =>
      obtain ⟨m0, _, _, _, heq⟩ := add_media_file_found (h (by
        unfold qualifies; rw [hvid]; simp))
      rw [heq]
    · rfl

lemma foldProcess_albums (cfg : ScannerCfg) (aid : Int) :
    ∀ (files : List String) (acc : DB × List (Int × String × Bool)),
      (files.foldl (processFile cfg aid) acc).1.albums = acc.1.albums
  | [], _ => rfl
  | f :: fs, acc => by
    rw [List.foldl_cons, foldProcess_albums cfg aid fs, processFile_albums]

lemma foldProcess_nextAlbumId (cfg : ScannerCfg) (aid : Int) :
    ∀ (files : List String) (acc : DB × List (Int × String × Bool)),
      (files.foldl (processFile cfg aid) acc).1.nextAlbumId = acc.1.nextAlbumId
  | [], _ => rfl
  | f :: fs, acc => by
    rw [List.foldl_cons, foldProcess_nextAlbumId cfg aid fs, processFile_nextAlbumId]

lemma foldProcess_media_mono (cfg : ScannerCfg) (aid : Int) :
    ∀ (files : List String) (acc : DB × List (Int × String × Bool)) {m : MediaItem},
      m ∈ acc.1.media → m ∈ (files.foldl (processFile cfg aid) acc).1.media
  | [], _, _, hm => hm
  | f :: fs, acc, m, hm => by
    rw [List.foldl_cons]
    exact foldProcess_media_mono cfg aid fs _ (processFile_media_mono cfg aid acc f hm)

lemma foldProcess_establishes (cfg : ScannerCfg) (aid : Int) :
    ∀ (files : List String) (acc : DB × List (Int × String × Bool)),
      ∀ f ∈ files, qualifies cfg f = true →
        ∃ m ∈ (files.foldl (processFile cfg aid) acc).1.media,
          m.album_id = aid ∧ m.filename = f
  | [], _, f, hf, _ => absurd hf (List.not_mem_nil f)
  | g :: gs, acc, f, hf, hq => by
    rw [List.foldl_cons]
    rcases List.mem_cons.mp hf with rfl | hf2
    · obtain ⟨m, hm, hprops⟩ := processFile_establishes cfg aid acc f hq
      exact ⟨m, foldProcess_media_mono cfg aid gs _ hm, hprops⟩
    · exact foldProcess_establishes cfg aid gs _ f hf2 hq

lemma foldProcess_fixed (cfg : ScannerCfg) (aid : Int) :
    ∀ (files : List String) (acc : DB × List (Int × String × Bool)),
      (∀ f ∈ files, qualifies cfg f = true →
        ∃ m ∈ acc.1.media, m.album_id = aid ∧ m.filename = f) →
      (files.foldl (processFile cfg aid) acc).1 = acc.1
  | [], _, _ => rfl
  | g :: gs, acc, h => by
    rw [List.foldl_cons]
    have hfix : (processFile cfg aid acc g).1 = acc.1 :=
      processFile_fixed cfg aid acc g (h g (List.mem_cons_self g gs))
    have hrest := foldProcess_fixed cfg aid gs (processFile cfg aid acc g) (by
      rw [hfix]
      intro f hf hq
      exact h f (List.mem_cons_of_mem g hf) hq)
    rw [hrest, hfix]

/-- add_album behavior on any input: preserves well-formedness, returns a
positive id, keeps the media table, and records the row. -/
lemma add_album_cases (db : DB) (ts : Nat) (p n : String) (y mo : Option Int)
    (hok : ScanOk db) :
    ScanOk (add_album db ts p n y mo).1
    ∧ 1 ≤ (add_album db ts p n y mo).2
    ∧ (add_album db ts p n y mo).1.media = db.media
    ∧ ∃ a ∈ (add_album db ts p n y mo).1.albums,
        a.path = p ∧ a.name = n ∧ a.year = y ∧ a.month = mo
        ∧ a.id = (add_album db ts p n y mo).2 := by
  obtain ⟨hpaths, hids, hnext⟩ := hok
  unfold add_album
  cases hfind : db.albums.find? (fun a => a.path = p) with
  | some b =>
    have hbp : b.path = p := by simpa using List.find?_some hfind
    have hbm : b ∈ db.albums := List.mem_of_find?_eq_some hfind
    have hpathmap : (db.albums.map (fun c =>
        if c.path = p then { c with name := n, year := y, month := mo } else c)).map
        (fun a => a.path) = db.albums.map (fun a => a.path) := by
      rw [List.map_map]
      apply List.map_congr_left
      intro c _
      by_cases hc : c.path = p <;> simp [hc]
    refine ⟨⟨by rw [hpathmap]; exact hpaths, ?_, hnext⟩, hids b hbm, rfl, ?_⟩
    · intro a ha
      simp only [List.mem_map] at ha
      obtain ⟨c, hc, hca⟩ := ha
      have := hids c hc
      by_cases hcp : c.path = p
      · rw [← hca, if_pos hcp]; exact this
      · rw [← hca, if_neg hcp]; exact this
    · refine ⟨{ b with name := n, year := y, month := mo },
        List.mem_map.mpr ⟨b, hbm, by rw [if_pos hbp]⟩, by simpa using hbp, rfl, rfl, rfl, rfl⟩
  | none =>
    have hnotin : ∀ a ∈ db.albums, a.path ≠ p := by
      intro a ha
      have := List.find?_eq_none.mp hfind a ha
      simpa using this
    refine ⟨⟨?_, ?_, by simp; omega⟩, hnext, rfl, ?_⟩
    · rw [List.map_append]
      apply List.Nodup.append hpaths (by simp)
      intro x hx hx2
      simp only [List.map_cons, List.map_nil, List.mem_singleton] at hx2
      subst hx2
      simp only [List.mem_map] at hx
      obtain ⟨a, ha, hap⟩ := hx
      exact hnotin a ha hap
    · intro a ha
      rcases List.mem_append.mp ha with ha2 | ha2
      · exact hids a ha2
      · simp only [List.mem_singleton] at ha2
        subst ha2
        exact hnext
    · refine ⟨_, List.mem_append.mpr (Or.inr (List.mem_singleton.mpr rfl)),
        rfl, rfl, rfl, rfl, rfl⟩

/-- processAlbumFolder establishes the scanned-album property and preserves
well-formedness. -/
lemma processAlbumFolder_establishes (cfg : ScannerCfg) (ts : Nat) (db : DB)
    (path : String) (files : List String) (hok : ScanOk db) :
    ScanOk (processAlbumFolder cfg ts db path files).1
    ∧ AScanned cfg (processAlbumFolder cfg ts db path files).1 path files := by
  obtain ⟨hok1, hid1, hmed1, a, ha, hpath, hn, hy, hmo, haid⟩ :=
    add_album_cases db ts path (albumFields (baseName path)).1
      (albumFields (baseName path)).2.1 (albumFields (baseName path)).2.2 hok
  unfold processAlbumFolder
  rw [if_neg (by omega)]
  constructor
  · obtain ⟨hp1, hp2, hp3⟩ := hok1
    refine ⟨?_, ?_, ?_⟩
    · rw [foldProcess_albums]; exact hp1
    · rw [foldProcess_albums]; exact hp2
    · rw [foldProcess_nextAlbumId]; exact hp3
  · refine ⟨a, ?_, hpath, hn, hy, hmo, ?_⟩
    · rw [foldProcess_albums]; exact ha
    · intro f hf hq
      obtain ⟨m, hm, hma, hmf⟩ := foldProcess_establishes cfg
        (add_album db ts path (albumFields (baseName path)).1
          (albumFields (baseName path)).2.1 (albumFields (baseName path)).2.2).2
        files _ f hf hq
      exact ⟨m, hm, by rw [hma, haid], hmf⟩

/-- processAlbumFolder on an already-scanned folder changes nothing. -/
lemma processAlbumFolder_fixed (cfg : ScannerCfg) (ts : Nat) (db : DB)
    (path : String) (files : List String) (hok : ScanOk db)
    (h : AScanned cfg db path files) :
    (processAlbumFolder cfg ts db path files).1 = db := by
  obtain ⟨a, ha, hpath, hn, hy, hmo, hmedia⟩ := h
  have hfound : add_album db ts path (albumFields (baseName path)).1
      (albumFields (baseName path)).2.1 (albumFields (baseName path)).2.2 = (db, a.id) := by
    rw [← hn, ← hy, ← hmo]
    exact add_album_found hok.1 ha hpath
  have hid : 1 ≤ a.id := hok.2.1 a ha
  unfold processAlbumFolder
  dsimp only
  rw [hfound]
  dsimp only
  rw [if_neg (show ¬(a.id = (-1 : Int)) by omega)]
  dsimp only
  rw [foldProcess_fixed cfg a.id files (db, []) (fun f hf hq => hmedia f hf hq)]

/-- processAlbumFolder on any folder preserves the scanned-album property of
every folder and well-formedness. -/
lemma processAlbumFolder_preserves (cfg : ScannerCfg) (ts : Nat) (db : DB)
    (q : String) (G : List String) {p : String} {F : List String}
    (h : AScanned cfg db p F) :
    AScanned cfg (processAlbumFolder cfg ts db q G).1 p F := by
  obtain ⟨a, ha, hpath, hn, hy, hmo, hmedia⟩ := h
  have hstep : ∃ a2 ∈ (add_album db ts q (albumFields (baseName q)).1
      (albumFields (baseName q)).2.1 (albumFields (baseName q)).2.2).1.albums,
      a2.path = p ∧ a2.name = a.name ∧ a2.year = a.year ∧ a2.month = a.month
      ∧ a2.id = a.id := by
    unfold add_album
    cases hfind : db.albums.find? (fun b => b.path = q) with
    | some b =>
      by_cases hap : a.path = q
      · have hqp : q = p := by rw [← hap, hpath]
        refine ⟨a, List.mem_map.mpr ⟨a, ha, ?_⟩, hpath, rfl, rfl, rfl, rfl⟩
        rw [if_pos hap, hqp]
        rw [← hn, ← hy, ← hmo]
      · exact ⟨a, List.mem_map.mpr ⟨a, ha, by rw [if_neg hap]⟩, hpath, rfl, rfl, rfl, rfl⟩
    | none =>
      exact ⟨a, List.mem_append.mpr (Or.inl ha), hpath, rfl, rfl, rfl, rfl⟩
  obtain ⟨a2, ha2, hpath2, hn2, hy2, hmo2, hid2⟩ := hstep
  have hmedkeep : (add_album db ts q (albumFields (baseName q)).1
      (albumFields (baseName q)).2.1 (albumFields (baseName q)).2.2).1.media = db.media := by
    unfold add_album
    cases hfind : db.albums.find? (fun b => b.path = q) <;> rfl
  unfold processAlbumFolder
  dsimp only
  split
  · exact ⟨a2, ha2, hpath2, hn2.symm ▸ hn, hy2.symm ▸ hy, hmo2.symm ▸ hmo, fun f hf hq => by
      rw [hmedkeep]
      obtain ⟨m, hm, hprops⟩ := hmedia f hf hq
      exact ⟨m, hm, hprops.1.trans hid2.symm, hprops.2⟩⟩
  · refine ⟨a2, ?_, hpath2, hn2.symm ▸ hn, hy2.symm ▸ hy, hmo2.symm ▸ hmo, ?_⟩
    · rw [foldProcess_albums]
      exact ha2
    · intro f hf hq
      obtain ⟨m, hm, hprops⟩ := hmedia f hf hq
      refine ⟨m, foldProcess_media_mono _ _ _ _ ?_, hprops.1.trans hid2.symm, hprops.2⟩
      rw [hmedkeep]
      exact hm

/-- processAlbumFolder preserves well-formedness. -/
lemma processAlbumFolder_scanOk (cfg : ScannerCfg) (ts : Nat) (db : DB)
    (q : String) (G : List String) (hok : ScanOk db) :
    ScanOk (processAlbumFolder cfg ts db q G).1 := by
  obtain ⟨hok1, _, _, _⟩ := add_album_cases db ts q (albumFields (baseName q)).1
    (albumFields (baseName q)).2.1 (albumFields (baseName q)).2.2 hok
  obtain ⟨hp1, hp2, hp3⟩ := hok1
  unfold processAlbumFolder
  dsimp only
  split
  · exact ⟨hp1, hp2, hp3⟩
  · exact ⟨by rw [foldProcess_albums]; exact hp1,
      by rw [foldProcess_albums]; exact hp2,
      by rw [foldProcess_nextAlbumId]; exact hp3⟩

/-- Every album folder the recursive walk would process is recorded in the
database (mirrors the control flow of walkScan). -/
def TreeScanned (cfg : ScannerCfg) : FSTree → String → DB → Prop
  | .node _ subs files, curPath, db =>
    if subs.all (fun c => cfg.exclude c.getName) then AScanned cfg db curPath files
    else listScanned subs curPath db
where
  listScanned : List FSTree → String → DB → Prop
  | [], _, _ => True
  | c :: rest, curPath, db =>
    (if cfg.exclude c.getName then True
     else TreeScanned cfg c (joinPath curPath c.getName) db)
    ∧ listScanned rest curPath db

mutual

lemma treeScanned_mono (cfg : ScannerCfg) :
    ∀ (t : FSTree) (curPath : String) (db db2 : DB),
      (∀ p F, AScanned cfg db p F → AScanned cfg db2 p F) →
      TreeScanned cfg t curPath db → TreeScanned cfg t curPath db2
  | .node nm subs files, curPath, db, db2, hstep, h => by
    unfold TreeScanned at h ⊢
    by_cases hall : subs.all (fun c => cfg.exclude c.getName) = true
    · rw [if_pos hall] at h ⊢
      exact hstep _ _ h
    · rw [if_neg hall] at h ⊢
      exact listScanned_mono cfg subs curPath db db2 hstep h

lemma listScanned_mono (cfg : ScannerCfg) :
    ∀ (l : List FSTree) (curPath : String) (db db2 : DB),
      (∀ p F, AScanned cfg db p F → AScanned cfg db2 p F) →
      TreeScanned.listScanned cfg l curPath db → TreeScanned.listScanned cfg l curPath db2
  | [], _, _, _, _, _ => trivial
  | c :: rest, curPath, db, db2, hstep, h => by
    unfold TreeScanned.listScanned at h ⊢
    refine ⟨?_, listScanned_mono cfg rest curPath db db2 hstep h.2⟩
    by_cases hx : cfg.exclude c.getName = true
    · rw [if_pos hx]
      trivial
    · rw [if_neg hx]
      have h1 := h.1
      rw [if_neg hx] at h1
      exact treeScanned_mono cfg c _ db db2 hstep h1

end

mutual

lemma walkScan_estab (cfg : ScannerCfg) (ts : Nat) :
    ∀ (t : FSTree) (curPath : String) (db : DB), ScanOk db →
      ScanOk (walkScan cfg ts t curPath db).1
      ∧ TreeScanned cfg t curPath (walkScan cfg ts t curPath db).1
      ∧ (∀ p F, AScanned cfg db p F → AScanned cfg (walkScan cfg ts t curPath db).1 p F)
  | .node nm subs files, curPath, db, hok => by
    unfold walkScan TreeScanned
    by_cases hall : subs.all (fun c => cfg.exclude c.getName) = true
    · rw [if_pos hall]
      dsimp only
      obtain ⟨hok2, hasc⟩ := processAlbumFolder_establishes cfg ts db curPath files hok
      rw [if_pos hall]
      exact ⟨hok2, hasc, fun p F h => processAlbumFolder_preserves cfg ts db curPath files h⟩
    · rw [if_neg hall]
      obtain ⟨hok2, hls, hpre⟩ := walkList_estab cfg ts subs curPath db hok
      rw [if_neg hall]
      exact ⟨hok2, hls, hpre⟩

lemma walkList_estab (cfg : ScannerCfg) (ts : Nat) :
    ∀ (l : List FSTree) (curPath : String) (db : DB), ScanOk db →
      ScanOk (walkScan.walkList cfg ts l curPath db).1
      ∧ TreeScanned.listScanned cfg l curPath (walkScan.walkList cfg ts l curPath db).1
      ∧ (∀ p F, AScanned cfg db p F →
          AScanned cfg (walkScan.walkList cfg ts l curPath db).1 p F)
  | [], curPath, db, hok => ⟨hok, trivial, fun _ _ h => h⟩
  | c :: rest, curPath, db, hok => by
    unfold walkScan.walkList TreeScanned.listScanned
    by_cases hx : cfg.exclude c.getName = true
    · rw [if_pos hx, if_pos hx]
      obtain ⟨hok2, hls, hpre⟩ := walkList_estab cfg ts rest curPath db hok
      exact ⟨hok2, ⟨trivial, hls⟩, hpre⟩
    · rw [if_neg hx, if_neg hx]
      dsimp only
      obtain ⟨hok1, ht1, hpre1⟩ :=
        walkScan_estab cfg ts c (joinPath curPath c.getName) db hok
      obtain ⟨hok2, hls2, hpre2⟩ := walkList_estab cfg ts rest curPath
        (walkScan cfg ts c (joinPath curPath c.getName) db).1 hok1
      refine ⟨hok2, ⟨?_, hls2⟩, fun p F h => hpre2 p F (hpre1 p F h)⟩
      exact treeScanned_mono cfg c _ _ _ hpre2 ht1

end

mutual

lemma walkScan_fixed (cfg : ScannerCfg) (ts : Nat) :
    ∀ (t : FSTree) (curPath : String) (db : DB), ScanOk db →
      TreeScanned cfg t curPath db → (walkScan cfg ts t curPath db).1 = db
  | .node nm subs files, curPath, db, hok, h => by
    unfold walkScan
    unfold TreeScanned at h
    by_cases hall : subs.all (fun c => cfg.exclude c.getName) = true
    · rw [if_pos hall] at h ⊢
      dsimp only
      exact processAlbumFolder_fixed cfg ts db curPath files hok h
    · rw [if_neg hall] at h ⊢
      exact walkList_fixed cfg ts subs curPath db hok h

lemma walkList_fixed (cfg : ScannerCfg) (ts : Nat) :
    ∀ (l : List FSTree) (curPath : String) (db : DB), ScanOk db →
      TreeScanned.listScanned cfg l curPath db →
      (walkScan.walkList cfg ts l curPath db).1 = db
  | [], _, _, _, _ => rfl
  | c :: rest, curPath, db, hok, h => by
    unfold walkScan.walkList
    unfold TreeScanned.listScanned at h
    by_cases hx : cfg.exclude c.getName = true
    · rw [if_pos hx]
      exact walkList_fixed cfg ts rest curPath db hok h.2
    · rw [if_neg hx]
      dsimp only
      have h1 := h.1
      rw [if_neg hx] at h1
      have hfix1 : (walkScan cfg ts c (joinPath curPath c.getName) db).1 = db :=
        walkScan_fixed cfg ts c _ db hok h1
      rw [hfix1]
      exact walkList_fixed cfg ts rest curPath db hok h.2

end

/-- Every album folder the current-level scan would process is recorded. -/
def ListScannedCur (cfg : ScannerCfg) (subs : List FSTree) (base : String)
    (db : DB) : Prop :=
  ∀ c ∈ subs, cfg.exclude c.getName = false →
    AScanned cfg db (joinPath base c.getName) c.getFiles

lemma processCurrent_estab (cfg : ScannerCfg) (ts : Nat) (base : String)
    (acc : DB × List (Int × List (Int × String × Bool))) (c : FSTree)
    (hok : ScanOk acc.1) :
    ScanOk (processCurrent cfg ts base acc c).1
    ∧ (cfg.exclude c.getName = false →
        AScanned cfg (processCurrent cfg ts base acc c).1
          (joinPath base c.getName) c.getFiles)
    ∧ (∀ p F, AScanned cfg acc.1 p F →
        AScanned cfg (processCurrent cfg ts base acc c).1 p F) := by
  unfold processCurrent
  by_cases hx : cfg.exclude c.getName = true
  · rw [if_pos hx]
    refine ⟨hok, fun hc => ?_, fun _ _ h => h⟩
    rw [hc] at hx
    cases hx
  · rw [if_neg hx]
    dsimp only
    obtain ⟨hok2, hasc⟩ := processAlbumFolder_establishes cfg ts acc.1
      (joinPath base c.getName) c.getFiles hok
    exact ⟨hok2, fun _ => hasc,
      fun p F h => processAlbumFolder_preserves cfg ts acc.1 _ _ h⟩

lemma processCurrent_fixed (cfg : ScannerCfg) (ts : Nat) (base : String)
    (acc : DB × List (Int × List (Int × String × Bool))) (c : FSTree)
    (hok : ScanOk acc.1)
    (h : cfg.exclude c.getName = false →
      AScanned cfg acc.1 (joinPath base c.getName) c.getFiles) :
    (processCurrent cfg ts base acc c).1 = acc.1 := by
  unfold processCurrent
  by_cases hx : cfg.exclude c.getName = true
  · rw [if_pos hx]
  · rw [if_neg hx]
    dsimp only
    exact processAlbumFolder_fixed cfg ts acc.1 _ _ hok (h (Bool.not_eq_true _ ▸ hx))

lemma foldCur_estab (cfg : ScannerCfg) (ts : Nat) (base : String) :
    ∀ (subs : List FSTree) (acc : DB × List (Int × List (Int × String × Bool))),
      ScanOk acc.1 →
      ScanOk (subs.foldl (processCurrent cfg ts base) acc).1
      ∧ ListScannedCur cfg subs base (subs.foldl (processCurrent cfg ts base) acc).1
      ∧ (∀ p F, AScanned cfg acc.1 p F →
          AScanned cfg (subs.foldl (processCurrent cfg ts base) acc).1 p F)
  | [], acc, hok => ⟨hok, fun c hc => absurd hc (List.not_mem_nil c), fun _ _ h => h⟩
  | c :: cs, acc, hok => by
    rw [List.foldl_cons]
    obtain ⟨hok1, hasc1, hpre1⟩ := processCurrent_estab cfg ts base acc c hok
    obtain ⟨hok2, hls2, hpre2⟩ := foldCur_estab cfg ts base cs
      (processCurrent cfg ts base acc c) hok1
    refine ⟨hok2, ?_, fun p F h => hpre2 p F (hpre1 p F h)⟩
    intro d hd hex
    rcases List.mem_cons.mp hd with rfl | hd2
    · exact hpre2 _ _ (hasc1 hex)
    · exact hls2 d hd2 hex

lemma foldCur_fixed (cfg : ScannerCfg) (ts : Nat) (base : String) :
    ∀ (subs : List FSTree) (acc : DB × List (Int × List (Int × String × Bool))),
      ScanOk acc.1 → ListScannedCur cfg subs base acc.1 →
      (subs.foldl (processCurrent cfg ts base) acc).1 = acc.1
  | [], _, _, _ => rfl
  | c :: cs, acc, hok, h => by
    rw [List.foldl_cons]
    have hfix : (processCurrent cfg ts base acc c).1 = acc.1 :=
      processCurrent_fixed cfg ts base acc c hok (h c (List.mem_cons_self c cs))
    have hrest := foldCur_fixed cfg ts base cs (processCurrent cfg ts base acc c)
      (by rw [hfix]; exact hok)
      (by rw [hfix]; intro d hd hex; exact h d (List.mem_cons_of_mem c hd) hex)
    rw [hrest, hfix]

/-- The root path specification is fully recorded: the resolved tree (if the
base directory exists) is scanned under the mode the suffix selects. -/
def RootScanned (cfg : ScannerCfg) (fs : List (String × FSTree)) (db : DB)
    (pathSpec : String) : Prop :=
  ∀ e ∈ fs.find? (fun e => e.1 = (stripPathSpec pathSpec).1),
    if (stripPathSpec pathSpec).2 then
      TreeScanned cfg e.2 (stripPathSpec pathSpec).1 db
    else ListScannedCur cfg e.2.getSubdirs (stripPathSpec pathSpec).1 db

lemma rootScanned_mono (cfg : ScannerCfg) {fs : List (String × FSTree)}
    {db db2 : DB} {pathSpec : String}
    (hstep : ∀ p F, AScanned cfg db p F → AScanned cfg db2 p F)
    (h : RootScanned cfg fs db pathSpec) : RootScanned cfg fs db2 pathSpec := by
  intro e he
  have h2 := h e he
  by_cases hmode : (stripPathSpec pathSpec).2 = true
  · rw [if_pos hmode] at h2 ⊢
    exact treeScanned_mono cfg e.2 _ db db2 hstep h2
  · rw [if_neg hmode] at h2 ⊢
    intro c hc hex
    exact hstep _ _ (h2 c hc hex)

lemma scanRoot_estab (cfg : ScannerCfg) (ts : Nat) (fs : List (String × FSTree))
    (pathSpec : String) (db : DB) (hok : ScanOk db) :
    ScanOk (scanRoot cfg ts fs db pathSpec).1
    ∧ RootScanned cfg fs (scanRoot cfg ts fs db pathSpec).1 pathSpec
    ∧ (∀ p F, AScanned cfg db p F →
        AScanned cfg (scanRoot cfg ts fs db pathSpec).1 p F) := by
  unfold scanRoot
  dsimp only
  split
  · next heq =>
    refine ⟨hok, ?_, fun _ _ h => h⟩
    intro e he
    rw [heq] at he
    cases he
  · next e heq =>
    dsimp only
    by_cases hmode : (stripPathSpec pathSpec).2 = true
    · rw [if_pos hmode]
      obtain ⟨hok2, ht, hpre⟩ := walkScan_estab cfg ts e.2 (stripPathSpec pathSpec).1 db hok
      refine ⟨hok2, ?_, hpre⟩
      intro e2 he2
      rw [heq] at he2
      obtain rfl : e = e2 := by simpa using he2
      rw [if_pos hmode]
      exact ht
    · rw [if_neg hmode]
      obtain ⟨hok2, hls, hpre⟩ := foldCur_estab cfg ts (stripPathSpec pathSpec).1
        e.2.getSubdirs (db, []) hok
      refine ⟨hok2, ?_, hpre⟩
      intro e2 he2
      rw [heq] at he2
      obtain rfl : e = e2 := by simpa using he2
      rw [if_neg hmode]
      exact hls

lemma scanRoot_fixed (cfg : ScannerCfg) (ts : Nat) (fs : List (String × FSTree))
    (pathSpec : String) (db : DB) (hok : ScanOk db)
    (h : RootScanned cfg fs db pathSpec) :
    (scanRoot cfg ts fs db pathSpec).1 = db := by
  unfold scanRoot
  dsimp only
  split
  · rfl
  · next e heq =>
    dsimp only
    have h2 := h e (by rw [heq]; rfl)
    by_cases hmode : (stripPathSpec pathSpec).2 = true
    · rw [if_pos hmode]
      rw [if_pos hmode] at h2
      exact walkScan_fixed cfg ts e.2 _ db hok h2
    · rw [if_neg hmode]
      rw [if_neg hmode] at h2
      exact foldCur_fixed cfg ts (stripPathSpec pathSpec).1 e.2.getSubdirs (db, []) hok h2

lemma scanFold_estab (cfg : ScannerCfg) (ts : Nat) (fs : List (String × FSTree)) :
    ∀ (paths : List String) (acc : DB × Nat × Nat), ScanOk acc.1 →
      ScanOk (paths.foldl (scanStep cfg ts fs) acc).1
      ∧ (∀ spec ∈ paths,
          RootScanned cfg fs (paths.foldl (scanStep cfg ts fs) acc).1 spec)
      ∧ (∀ p F, AScanned cfg acc.1 p F →
          AScanned cfg (paths.foldl (scanStep cfg ts fs) acc).1 p F)
  | [], acc, hok => ⟨hok, fun s hs => absurd hs (List.not_mem_nil s), fun _ _ h => h⟩
  | q :: qs, acc, hok => by
    rw [List.foldl_cons]
    obtain ⟨hok1, hroot1, hpre1⟩ := scanRoot_estab cfg ts fs q acc.1 hok
    obtain ⟨hok2, hroots2, hpre2⟩ := scanFold_estab cfg ts fs qs
      (scanStep cfg ts fs acc q) (by exact hok1)
    refine ⟨hok2, ?_, fun p F h => hpre2 p F (hpre1 p F h)⟩
    intro s hs
    rcases List.mem_cons.mp hs with rfl | hs2
    · exact rootScanned_mono cfg hpre2 hroot1
    · exact hroots2 s hs2

lemma scanFold_fixed (cfg : ScannerCfg) (ts : Nat) (fs : List (String × FSTree)) :
    ∀ (paths : List String) (acc : DB × Nat × Nat), ScanOk acc.1 →
      (∀ spec ∈ paths, RootScanned cfg fs acc.1 spec) →
      (paths.foldl (scanStep cfg ts fs) acc).1 = acc.1
  | [], _, _, _ => rfl
  | q :: qs, acc, hok, h => by
    rw [List.foldl_cons]
    have hfix : (scanStep cfg ts fs acc q).1 = acc.1 :=
      scanRoot_fixed cfg ts fs q acc.1 hok (h q (List.mem_cons_self q qs))
    have hrest := scanFold_fixed cfg ts fs qs (scanStep cfg ts fs acc q)
      (by rw [hfix]; exact hok)
      (by rw [hfix]; intro s hs; exact h s (List.mem_cons_of_mem q hs))
    rw [hrest, hfix]

/-- C4: scanning the same filesystem twice changes nothing the second time —
no duplicate Album or MediaItem rows, countTotal unchanged — because
upsertAlbum keyed by path updates name/year/month in place returning the
existing id, and upsertMediaItem keyed by (album_id, filename) returns the
existing id without modifying the row. -/
theorem claim_C4_scan_idempotent (cfg : ScannerCfg) (ts ts2 : Nat)
    (fs : List (String × FSTree)) (paths : List String) (db : DB)
    (hok : ScanOk db) :
    (scan cfg ts2 fs paths (scan cfg ts fs paths db).1).1 = (scan cfg ts fs paths db).1
    ∧ get_media_count (scan cfg ts2 fs paths (scan cfg ts fs paths db).1).1
        = get_media_count (scan cfg ts fs paths db).1
    ∧ (∀ (ts3 : Nat) (p : String) (a : Album), a ∈ db.albums → a.path = p →
        add_album db ts3 p a.name a.year a.month = (db, a.id))
    ∧ (∀ (aid : Int) (f e : String) (v : Bool),
        (∃ m ∈ db.media, m.album_id = aid ∧ m.filename = f) →
        ∃ m0 ∈ db.media, m0.album_id = aid ∧ m0.filename = f ∧
          add_media_file db aid f e v = (db, m0.id)) := by
  obtain ⟨hok1, hroots, _⟩ := scanFold_estab cfg ts fs paths (db, 0, 0) hok
  have h1 : (scan cfg ts2 fs paths (scan cfg ts fs paths db).1).1
      = (scan cfg ts fs paths db).1 :=
    scanFold_fixed cfg ts2 fs paths ((scan cfg ts fs paths db).1, 0, 0) hok1 hroots
  exact ⟨h1, by rw [h1],
    fun ts3 p a ha hp => add_album_found hok.1 ha hp,
    fun aid f e v h => add_media_file_found h⟩

/-! ## C2: seen = false iff last_shown is null, at every reachable state -/

/-- The §3 invariant: for every media row, seen is false exactly when
last_shown is NULL. -/
def SeenInv (db : DB) : Prop :=
  ∀ m ∈ db.media, (m.seen = false ↔ m.last_shown = none)

lemma add_album_media (db : DB) (ts : Nat) (p n : String) (y mo : Option Int) :
    (add_album db ts p n y mo).1.media = db.media := by
  unfold add_album
  split <;> rfl

lemma add_album_nextMediaId (db : DB) (ts : Nat) (p n : String) (y mo : Option Int) :
    (add_album db ts p n y mo).1.nextMediaId = db.nextMediaId := by
  unfold add_album
  split <;> rfl

/-- Whether a reset_seen_status call covers a given media row (the row is in
the scope that the branch taken by the call updates). -/
def resetScopeCovers (albums : List Album) (m : MediaItem) (aid : Option Int)
    (tr : Bool) (sy sm ey em : Option Int) : Bool :=
  match aid with
  | some a => decide (m.album_id = a)
  | none =>
    match tr, sy, sm, ey, em with
    | true, some y1, some m1, some y2, some m2 =>
      if y1 ≠ 0 ∧ m1 ≠ 0 ∧ y2 ≠ 0 ∧ m2 ≠ 0 then resetRangeCond albums m y1 m1 y2 m2
      else true
    | _, _, _, _, _ => true

/-- reset_seen_status does not touch the id allocation counters. -/
lemma reset_seen_status_nextMediaId (db : DB) (aid : Option Int) (tr : Bool)
    (sy sm ey em : Option Int) :
    (reset_seen_status db aid tr sy sm ey em).nextMediaId = db.nextMediaId := by
  unfold reset_seen_status
  split
  · rfl
  · split
    · split <;> rfl
    · rfl

/-- All branches of reset_seen_status update exactly the rows covered by
resetScopeCovers. -/
lemma reset_media_eq (db : DB) (aid : Option Int) (tr : Bool) (sy sm ey em : Option Int) :
    (reset_seen_status db aid tr sy sm ey em).media =
      db.media.map (fun m =>
        if resetScopeCovers db.albums m aid tr sy sm ey em then resetRow m else m) := by
  rcases aid with _ | a
  · cases tr with
    | false => simp [reset_seen_status, resetScopeCovers]
    | true =>
      rcases sy with _ | y1
      · simp [reset_seen_status, resetScopeCovers]
      · rcases sm with _ | m1
        · simp [reset_seen_status, resetScopeCovers]
        · rcases ey with _ | y2
          · simp [reset_seen_status, resetScopeCovers]
          · rcases em with _ | m2
            · simp [reset_seen_status, resetScopeCovers]
            · by_cases hg : y1 ≠ 0 ∧ m1 ≠ 0 ∧ y2 ≠ 0 ∧ m2 ≠ 0
              · simp only [reset_seen_status, resetScopeCovers, if_pos hg]
              · simp only [reset_seen_status, resetScopeCovers, if_neg hg]
                simp
  · simp only [reset_seen_status, resetScopeCovers]
    apply List.map_congr_left
    intro x _
    by_cases hx : x.album_id = a <;> simp [hx]

/-- Every public mutating operation preserves the seen/last_shown invariant. -/
lemma seenInv_applyOp {db : DB} (op : StoreOp) (h : SeenInv db) :
    SeenInv (applyOp db op) := by
  cases op with
  | addAlbum ts p n y mo =>
    intro m hm
    rw [show applyOp db (.addAlbum ts p n y mo) = (add_album db ts p n y mo).1 from rfl,
      add_album_media] at hm
    exact h m hm
  | addMedia a f e v =>
    intro m hm
    simp only [applyOp] at hm
    revert hm
    unfold add_media_file
    split
    · intro hm; exact h m hm
    · intro hm
      simp only [List.mem_append, List.mem_singleton] at hm
      rcases hm with hm | rfl
      · exact h m hm
      · simp
  | markSeen j ts =>
    intro m hm
    simp only [applyOp, mark_media_as_seen, List.mem_map] at hm
    obtain ⟨m0, hm0, rfl⟩ := hm
    by_cases hj : m0.id = j
    · simp [hj]
    · simp only [hj, if_false]
      exact h m0 hm0
  | resetSeen aid tr sy sm ey em =>
    intro m hm
    simp only [applyOp] at hm
    rw [reset_media_eq] at hm
    obtain ⟨m0, hm0, rfl⟩ := List.mem_map.mp hm
    by_cases hc : resetScopeCovers db.albums m0 aid tr sy sm ey em = true
    · rw [if_pos hc]
      simp [resetRow]
    · rw [if_neg hc]
      exact h m0 hm0

lemma seenInv_runOps {db : DB} (h : SeenInv db) :
    ∀ ops : List StoreOp, SeenInv (runOps db ops) := by
  intro ops
  induction ops generalizing db with
  | nil => exact h
  | cons op rest ih => exact ih (seenInv_applyOp op h)

/-- C2: for every media row, seen = false iff last_shown = NULL, at every
state reachable from a fresh database through the public operations; the
operations never mutate the two fields independently (each one preserves
the invariant). -/
theorem claim_C2_seen_iff_last_shown_null :
    (∀ (db : DB) (op : StoreOp), SeenInv db → SeenInv (applyOp db op))
    ∧ ∀ ops : List StoreOp, SeenInv (runOps emptyDB ops) := by
  refine ⟨fun db op h => seenInv_applyOp op h, fun ops => seenInv_runOps ?_ ops⟩
  intro m hm
  simp [emptyDB] at hm

/-! ## C5: picks avoid seen rows; markSeen sticks until a reset touches the row -/

/-- A joined row's media component is a media row of the database. -/
lemma joinRows_fst_mem {db : DB} {p : MediaItem × Album} (h : p ∈ joinRows db) :
    p.1 ∈ db.media := by
  simp only [joinRows, List.mem_flatMap, List.mem_map, List.mem_filter] at h
  obtain ⟨m, hm, a, ha, hp⟩ := h
  rw [← hp]
  exact hm

/-- pickRandomUnseen only returns rows with seen = 0. -/
lemma pick_unseen {c : Nat} {db : DB} {aid sy sm ey em : Option Int}
    {p : MediaItem × Album}
    (h : get_random_unseen_media c db aid sy sm ey em = some p) :
    p.1.seen = false := by
  have hp := get_random_unseen_media_mem h
  have hc := List.of_mem_filter hp
  simp only [unseenCond, Bool.and_eq_true, decide_eq_true_eq] at hc
  exact hc.1.1

/-- Whether an operation is a reset touching the row with the given id in the
given pre-state. -/
def opTouchesRow (db : DB) (i : Int) : StoreOp → Bool
  | .resetSeen aid tr sy sm ey em =>
    db.media.any (fun m => decide (m.id = i) && resetScopeCovers db.albums m aid tr sy sm ey em)
  | _ => false

/-- No operation of the sequence, in its own pre-state, is a reset touching
the row with the given id. -/
def NoTouch (i : Int) : DB → List StoreOp → Prop
  | _, [] => True
  | db, op :: rest => opTouchesRow db i op = false ∧ NoTouch i (applyOp db op) rest

/-- Media ids are below the allocation counter. -/
def IdsFresh (db : DB) : Prop := ∀ m ∈ db.media, m.id < db.nextMediaId

/-- Every media row with the given id is marked seen. -/
def SeenAt (db : DB) (i : Int) : Prop := ∀ m ∈ db.media, m.id = i → m.seen = true

lemma idsFresh_applyOp {db : DB} (op : StoreOp) (h : IdsFresh db) :
    IdsFresh (applyOp db op) := by
  cases op with
  | addAlbum ts p n y mo =>
    intro m hm
    rw [show applyOp db (.addAlbum ts p n y mo) = (add_album db ts p n y mo).1 from rfl] at hm ⊢
    rw [add_album_media] at hm
    rw [add_album_nextMediaId]
    exact h m hm
  | addMedia a f e v =>
    intro m hm
    simp only [applyOp] at hm ⊢
    revert hm
    unfold add_media_file
    split
    · intro hm; exact h m hm
    · intro hm
      simp only [List.mem_append, List.mem_singleton] at hm
      rcases hm with hm | rfl
      · have := h m hm; simp; omega
      · simp
  | markSeen j ts =>
    intro m hm
    simp only [applyOp, mark_media_as_seen, List.mem_map] at hm ⊢
    obtain ⟨m0, hm0, rfl⟩ := hm
    have := h m0 hm0
    by_cases hj : m0.id = j
    · simpa [hj] using this
    · simpa [hj] using this
  | resetSeen aid tr sy sm ey em =>
    intro m hm
    simp only [applyOp] at hm ⊢
    rw [reset_media_eq] at hm
    obtain ⟨m0, hm0, rfl⟩ := List.mem_map.mp hm
    have := h m0 hm0
    by_cases hc : resetScopeCovers db.albums m0 aid tr sy sm ey em = true
    · rw [if_pos hc]
      simpa [reset_seen_status_nextMediaId, resetRow] using this
    · rw [if_neg hc]
      simpa [reset_seen_status_nextMediaId] using this

lemma nextMediaId_mono {db : DB} (op : StoreOp) :
    db.nextMediaId ≤ (applyOp db op).nextMediaId := by
  cases op with
  | addAlbum ts p n y mo =>
    rw [show applyOp db (.addAlbum ts p n y mo) = (add_album db ts p n y mo).1 from rfl,
      add_album_nextMediaId]
  | addMedia a f e v =>
    simp only [applyOp]
    unfold add_media_file
    split
    · exact le_refl _
    · show db.nextMediaId ≤ db.nextMediaId + 1
      omega
  | markSeen j ts => exact le_refl _
  | resetSeen aid tr sy sm ey em =>
    simp only [applyOp]
    rw [reset_seen_status_nextMediaId]

/-- One non-touching operation preserves the marked state of the row. -/
lemma seenAt_applyOp {db : DB} {i : Int} (op : StoreOp)
    (hi : i < db.nextMediaId)
    (htouch : opTouchesRow db i op = false) (h : SeenAt db i) :
    SeenAt (applyOp db op) i := by
  cases op with
  | addAlbum ts p n y mo =>
    intro m hm
    rw [show applyOp db (.addAlbum ts p n y mo) = (add_album db ts p n y mo).1 from rfl,
      add_album_media] at hm
    exact h m hm
  | addMedia a f e v =>
    intro m hm
    simp only [applyOp] at hm
    revert hm
    unfold add_media_file
    split
    · intro hm; exact h m hm
    · intro hm
      simp only [List.mem_append, List.mem_singleton] at hm
      rcases hm with hm | rfl
      · exact h m hm
      · intro hid
        exfalso
        simp only at hid
        omega
  | markSeen j ts =>
    intro m hm
    simp only [applyOp, mark_media_as_seen, List.mem_map] at hm
    obtain ⟨m0, hm0, rfl⟩ := hm
    by_cases hj : m0.id = j
    · simp [hj]
    · simp only [hj, if_false]
      exact h m0 hm0
  | resetSeen aid tr sy sm ey em =>
    intro m hm hid
    simp only [applyOp] at hm
    rw [reset_media_eq] at hm
    simp only [opTouchesRow, List.any_eq_false] at htouch
    obtain ⟨m0, hm0, rfl⟩ := List.mem_map.mp hm
    by_cases hc : resetScopeCovers db.albums m0 aid tr sy sm ey em = true
    · exfalso
      rw [if_pos hc] at hid
      have hid0 : m0.id = i := hid
      have hfalse := htouch m0 hm0
      rw [hc, hid0] at hfalse
      simp at hfalse
    · rw [if_neg hc] at hid ⊢
      exact h m0 hm0 hid

/-- The marked state of a row survives any sequence of non-touching
operations. -/
lemma seenAt_runOps {i : Int} :
    ∀ (ops : List StoreOp) (db : DB), i < db.nextMediaId → SeenAt db i →
      NoTouch i db ops → SeenAt (runOps db ops) i
  | [], _, _, h, _ => h
  | op :: rest, db, hi, h, hnt =>
    seenAt_runOps rest (applyOp db op)
      (lt_of_lt_of_le hi (nextMediaId_mono op))
      (seenAt_applyOp op hi hnt.1 h) hnt.2

/-- markSeen marks every row carrying the id. -/
lemma seenAt_mark (db : DB) (i : Int) (ts : Nat) :
    SeenAt (mark_media_as_seen db i ts) i := by
  intro m hm hm_id
  simp only [mark_media_as_seen, List.mem_map] at hm
  obtain ⟨m0, hm0, rfl⟩ := hm
  by_cases hj : m0.id = i
  · simp [hj]
  · rw [if_neg hj] at hm_id
    exact absurd hm_id hj

/-- C5: pickRandomUnseen never returns a row with seen = true, under any
filters; and after markSeen(i), as long as no reset operation touches the
row i, an unfiltered pickRandomUnseen never returns a row with id i. -/
theorem claim_C5_pick_respects_seen (db : DB) (i : Int) (ts : Nat) (ops : List StoreOp)
    (hi : i < db.nextMediaId)
    (hnt : NoTouch i (mark_media_as_seen db i ts) ops) :
    (∀ (c : Nat) (db2 : DB) (aid sy sm ey em : Option Int) (p : MediaItem × Album),
      get_random_unseen_media c db2 aid sy sm ey em = some p → p.1.seen = false)
    ∧ (∀ (c : Nat) (p : MediaItem × Album),
      get_random_unseen_media c (runOps (mark_media_as_seen db i ts) ops)
        none none none none none = some p → p.1.id ≠ i) := by
  constructor
  · intro c db2 aid sy sm ey em p h
    exact pick_unseen h
  · intro c p h hip
    have hfinal : SeenAt (runOps (mark_media_as_seen db i ts) ops) i :=
      seenAt_runOps ops _ hi (seenAt_mark db i ts) hnt
    have hmem := get_random_unseen_media_mem h
    have hm1 : p.1 ∈ (runOps (mark_media_as_seen db i ts) ops).media :=
      joinRows_fst_mem (List.mem_filter.mp hmem).1
    have hseen := hfinal p.1 hm1 hip
    rw [pick_unseen h] at hseen
    cases hseen

/-- The concrete store for the C5 witness: one album, two media rows. -/
def dbC5 : DB :=
  { albums := [{ id := 1, path := "/a", name := "a", year := none, month := none,
                 created_at := 0 }],
    media := [{ id := 1, album_id := 1, filename := "x.jpg", extension := ".jpg",
                is_video := false, seen := false, last_shown := none },
              { id := 2, album_id := 1, filename := "y.jpg", extension := ".jpg",
                is_video := false, seen := false, last_shown := none }],
    nextAlbumId := 2, nextMediaId := 3 }

/-- Operations after the markSeen of the witness run: a reset scoped to a
different album and an insertion, neither touching row 1. -/
def opsC5 : List StoreOp :=
  [.resetSeen (some 99) false none none none none, .addMedia 1 "z.jpg" ".jpg" false]

/-- The row the witness pick returns. -/
def pC5 : MediaItem × Album :=
  ({ id := 2, album_id := 1, filename := "y.jpg", extension := ".jpg",
     is_video := false, seen := false, last_shown := none },
   { id := 1, path := "/a", name := "a", year := none, month := none, created_at := 0 })

/-- Witness for C5 at a concrete run. -/
theorem claim_C5_witness : pC5.1.id ≠ 1 :=
  (claim_C5_pick_respects_seen dbC5 1 5 opsC5 (by decide) ⟨rfl, rfl, trivial⟩).2 0 pC5 rfl

/-! ## C1: the exhaustion / reset-and-retry policy of selectNext -/

/-- Well-formed database: media ids and album ids are unique (the PRIMARY
KEY constraints of the schema). -/
def DBok (db : DB) : Prop :=
  (db.media.map (fun m => m.id)).Nodup ∧ (db.albums.map (fun a => a.id)).Nodup

/-- The candidate list of the initial query of _get_next_media, under the
currently active filters of the coordinator state. -/
def initialCandidates (st : CoordState) (db : DB) : List (MediaItem × Album) :=
  unseenCandidates db st.album_filter st.time_range.start_year st.time_range.start_month
    st.time_range.end_year st.time_range.end_month

/-- The joined rows of the scope that the reset-precedence of _get_next_media
selects: the filtered album when an album filter is active, else the joined
rows whose album satisfies the date-range condition when the full range is
set, else everything. -/
def scopeCorpus (st : CoordState) (db : DB) : List (MediaItem × Album) :=
  match st.album_filter with
  | some a => (joinRows db).filter (fun p => decide (p.1.album_id = a))
  | none =>
    if st.time_range.active then
      (joinRows db).filter (fun p =>
        rangeFilter st.time_range.start_year st.time_range.start_month
          st.time_range.end_year st.time_range.end_month p.2.year p.2.month)
    else joinRows db

/-- During a run of select-then-mark cycles, every cycle finds its initial
query non-empty (hence never takes the reset path). -/
def NoResetRun (st : CoordState) : List (Nat × Nat × Nat) → DB → Prop
  | [], _ => True
  | c :: rest, db =>
    initialCandidates st db ≠ [] ∧
    NoResetRun st rest (selectMarkCycle c.1 c.2.1 c.2.2 st db)

lemma get_random_unseen_media_eq_none {c : Nat} {db : DB} {aid sy sm ey em : Option Int} :
    get_random_unseen_media c db aid sy sm ey em = none ↔
      unseenCandidates db aid sy sm ey em = [] := by
  unfold get_random_unseen_media
  constructor
  · intro h
    by_contra hne
    have hlen : 0 < (unseenCandidates db aid sy sm ey em).length :=
      List.length_pos.mpr hne
    have hlt : c % (unseenCandidates db aid sy sm ey em).length <
        (unseenCandidates db aid sy sm ey em).length := Nat.mod_lt _ hlen
    rw [List.get?_eq_none] at h
    omega
  · intro h
    rw [h]
    rfl

lemma get_random_unseen_media_isSome {c : Nat} {db : DB} {aid sy sm ey em : Option Int}
    (h : unseenCandidates db aid sy sm ey em ≠ []) :
    ∃ p, get_random_unseen_media c db aid sy sm ey em = some p := by
  cases hp : get_random_unseen_media c db aid sy sm ey em with
  | none => exact absurd (get_random_unseen_media_eq_none.mp hp) h
  | some p => exact ⟨p, rfl⟩

/-- The join after a media-only rewrite that keeps album_id is the pointwise
rewrite of the join. -/
lemma joinRows_of_media_map {db db2 : DB} (g : MediaItem → MediaItem)
    (hmedia : db2.media = db.media.map g) (halbums : db2.albums = db.albums)
    (hg : ∀ m, (g m).album_id = m.album_id) :
    joinRows db2 = (joinRows db).map (fun p => (g p.1, p.2)) := by
  unfold joinRows
  rw [hmedia, halbums]
  induction db.media with
  | nil => rfl
  | cons m l ih =>
    simp only [List.map_cons, List.flatMap_cons, List.map_append, ih]
    congr 1
    rw [hg m, List.map_map]
    rfl

/-- The album component of a joined row is an album row carrying the media
row's album_id. -/
lemma joinRows_snd_mem {db : DB} {p : MediaItem × Album} (h : p ∈ joinRows db) :
    p.2 ∈ db.albums ∧ p.2.id = p.1.album_id := by
  simp only [joinRows, List.mem_flatMap, List.mem_map] at h
  obtain ⟨m, hm, a, ha, hp⟩ := h
  rw [List.mem_filter] at ha
  subst hp
  exact ⟨ha.1, by simpa using ha.2⟩

/-- Marking one id removes exactly the candidate entries with that id. -/
lemma unseenCandidates_mark (db : DB) (i : Int) (ts : Nat)
    (aid sy sm ey em : Option Int) :
    unseenCandidates (mark_media_as_seen db i ts) aid sy sm ey em =
      (unseenCandidates db aid sy sm ey em).filter (fun p => decide (p.1.id ≠ i)) := by
  unfold unseenCandidates
  rw [@joinRows_of_media_map db (mark_media_as_seen db i ts)
    (fun m => if m.id = i then { m with seen := true, last_shown := some ts } else m)
    rfl rfl (fun m => by by_cases hm : m.id = i <;> simp [hm])]
  have hpt : ∀ a ∈ joinRows db,
      (unseenCond aid sy sm ey em ∘
        (fun p : MediaItem × Album =>
          ((if p.1.id = i then { p.1 with seen := true, last_shown := some ts } else p.1),
           p.2))) a
      = (decide (a.1.id ≠ i) && unseenCond aid sy sm ey em a) := by
    intro a _
    by_cases hi : a.1.id = i
    · simp [unseenCond, hi]
    · simp [unseenCond, hi]
  rw [List.filter_map, List.filter_filter, List.filter_congr hpt]
  rw [List.map_congr_left (fun a ha => ?_), List.map_id]
  rw [List.mem_filter] at ha
  have hne : a.1.id ≠ i := by
    have h2 := ha.2
    simp only [Bool.and_eq_true, decide_eq_true_eq] at h2
    exact h2.1
  show ((if a.1.id = i then { a.1 with seen := true, last_shown := some ts } else a.1), a.2)
    = id a
  rw [if_neg hne]
  rfl

/-- With unique album ids, at most one album row matches a given id. -/
lemma filter_album_id_len_le_one {l : List Album}
    (h : (l.map (fun a => a.id)).Nodup) (x : Int) :
    (l.filter (fun a => decide (a.id = x))).length ≤ 1 := by
  induction l with
  | nil => exact Nat.zero_le 1
  | cons a l ih =>
    simp only [List.map_cons, List.nodup_cons] at h
    rw [List.filter_cons]
    by_cases hx : a.id = x
    · rw [if_pos (by simpa using hx)]
      have hnil : l.filter (fun b => decide (b.id = x)) = [] := by
        rw [List.filter_eq_nil_iff]
        intro b hb
        simp only [decide_eq_true_eq]
        intro hbx
        exact h.1 (List.mem_map.mpr ⟨b, hb, by rw [hbx, hx]⟩)
      rw [hnil]
      exact le_refl 1
    · rw [if_neg (by simpa using hx)]
      exact ih h.2

/-- The media-id of every joined row comes from the media table. -/
lemma mem_joinRows_ids {albums : List Album} {l : List MediaItem} {x : Int}
    (h : x ∈ (l.flatMap (fun m =>
      (albums.filter (fun a => a.id = m.album_id)).map (fun a => (m, a)))).map
      (fun p => p.1.id)) :
    x ∈ l.map (fun m => m.id) := by
  simp only [List.mem_map, List.mem_flatMap] at h
  obtain ⟨p, ⟨m, hm, a, _, hpa⟩, hx⟩ := h
  subst hpa
  exact List.mem_map.mpr ⟨m, hm, hx⟩

/-- In a well-formed database the joined rows carry pairwise distinct media
ids (each media row joins at most one album). -/
lemma joinRows_ids_nodup {db : DB} (h : DBok db) :
    ((joinRows db).map (fun p => p.1.id)).Nodup := by
  obtain ⟨hm, ha⟩ := h
  unfold joinRows
  revert hm
  induction db.media with
  | nil => intro _; simp
  | cons m l ih =>
    intro hm
    simp only [List.map_cons, List.nodup_cons] at hm
    simp only [List.flatMap_cons, List.map_append]
    apply List.Nodup.append
    · have hlen := filter_album_id_len_le_one ha m.album_id
      cases hfl : db.albums.filter (fun a => decide (a.id = m.album_id)) with
      | nil => simp
      | cons b bl =>
        rw [hfl] at hlen
        simp only [List.length_cons] at hlen
        have hbl : bl = [] := List.length_eq_zero.mp (by omega)
        subst hbl
        simp
    · exact ih hm.2
    · intro x hx1 hx2
      have hx1' : x = m.id := by
        simp only [List.mem_map] at hx1
        obtain ⟨p, ⟨a, _, hpa⟩, hxp⟩ := hx1
        subst hpa
        exact hxp.symm
      subst hx1'
      exact hm.1 (mem_joinRows_ids hx2)

/-- Candidate lists inherit the distinct media ids. -/
lemma cands_ids_nodup {db : DB} {aid sy sm ey em : Option Int} (h : DBok db) :
    ((unseenCandidates db aid sy sm ey em).map (fun p => p.1.id)).Nodup :=
  ((List.filter_sublist _).map _).nodup (joinRows_ids_nodup h)

/-- Removing the entries with one present id shortens the list by one when the
ids are distinct. -/
lemma length_filter_ne {l : List (MediaItem × Album)}
    (h : (l.map (fun p => p.1.id)).Nodup)
    {p : MediaItem × Album} (hp : p ∈ l) :
    (l.filter (fun q => decide (q.1.id ≠ p.1.id))).length = l.length - 1 := by
  induction l with
  | nil => cases hp
  | cons q l ih =>
    simp only [List.map_cons, List.nodup_cons] at h
    rw [List.filter_cons]
    by_cases hq : q.1.id = p.1.id
    · rw [if_neg (by simp [hq])]
      have hself : l.filter (fun r => decide (r.1.id ≠ p.1.id)) = l := by
        rw [List.filter_eq_self]
        intro b hb
        simp only [decide_eq_true_eq]
        intro hbid
        exact h.1 (List.mem_map.mpr ⟨b, hb, by rw [hbid, hq]⟩)
      rw [hself]
      simp
    · rw [if_pos (by simp [hq])]
      have hpl : p ∈ l := by
        rcases List.mem_cons.mp hp with rfl | hpl
        · exact absurd rfl hq
        · exact hpl
      simp only [List.length_cons]
      rw [ih h.2 hpl]
      have hpos : 0 < l.length := List.length_pos.mpr (List.ne_nil_of_mem hpl)
      omega

/-- Marking a row keeps the database well-formed. -/
lemma dbok_mark {db : DB} (h : DBok db) (i : Int) (ts : Nat) :
    DBok (mark_media_as_seen db i ts) := by
  obtain ⟨hm, ha⟩ := h
  constructor
  · have hids : (mark_media_as_seen db i ts).media.map (fun m => m.id) =
        db.media.map (fun m => m.id) := by
      simp only [mark_media_as_seen]
      rw [List.map_map]
      apply List.map_congr_left
      intro m _
      by_cases hm2 : m.id = i <;> simp [hm2]
    rw [hids]
    exact hm
  · exact ha

/-- When the initial query is non-empty, _get_next_media takes the direct
path and the cycle marks the picked item. -/
lemma selectMark_direct {st : CoordState} {db : DB} (c1 c2 ts : Nat)
    (hne : initialCandidates st db ≠ []) :
    ∃ p ∈ initialCandidates st db,
      get_next_media c1 c2 st db = (db, some p) ∧
      selectMarkCycle c1 c2 ts st db = mark_media_as_seen db p.1.id ts := by
  obtain ⟨p, hp⟩ := @get_random_unseen_media_isSome c1 db st.album_filter
    st.time_range.start_year st.time_range.start_month
    st.time_range.end_year st.time_range.end_month hne
  have hnext : get_next_media c1 c2 st db = (db, some p) := by
    unfold get_next_media
    rw [hp]
  refine ⟨p, get_random_unseen_media_mem hp, hnext, ?_⟩
  unfold selectMarkCycle
  rw [hnext]

/-- After exactly as many select-then-mark cycles as there are unseen
candidates, no cycle took the reset path, the database stays well-formed and
the candidate pool is exhausted. -/
lemma runCycles_exhausts {st : CoordState} :
    ∀ (cs : List (Nat × Nat × Nat)) (db : DB), DBok db →
      (initialCandidates st db).length = cs.length →
      NoResetRun st cs db ∧ DBok (runCycles st cs db) ∧
        initialCandidates st (runCycles st cs db) = [] := by
  intro cs
  induction cs with
  | nil =>
    intro db hok hlen
    exact ⟨trivial, hok, List.length_eq_zero.mp (by simpa using hlen)⟩
  | cons c cs ih =>
    intro db hok hlen
    have hne : initialCandidates st db ≠ [] := by
      intro hnil
      rw [hnil] at hlen
      simp at hlen
    obtain ⟨p, hpmem, hnext, hcycle⟩ := selectMark_direct c.1 c.2.1 c.2.2 hne
    have hok2 : DBok (mark_media_as_seen db p.1.id c.2.2) := dbok_mark hok _ _
    have hcands : initialCandidates st (mark_media_as_seen db p.1.id c.2.2) =
        (initialCandidates st db).filter (fun q => decide (q.1.id ≠ p.1.id)) :=
      unseenCandidates_mark db p.1.id c.2.2 _ _ _ _ _
    have hlen2 : (initialCandidates st (mark_media_as_seen db p.1.id c.2.2)).length
        = cs.length := by
      rw [hcands, length_filter_ne
        (show ((initialCandidates st db).map (fun p => p.1.id)).Nodup from
          cands_ids_nodup hok) hpmem]
      rw [List.length_cons] at hlen
      omega
    obtain ⟨hnr, hok3, hempty⟩ := ih (mark_media_as_seen db p.1.id c.2.2) hok2 hlen2
    refine ⟨⟨hne, ?_⟩, ?_, ?_⟩
    · rw [hcycle]; exact hnr
    · show DBok (runCycles st cs (selectMarkCycle c.1 c.2.1 c.2.2 st db))
      rw [hcycle]; exact hok3
    · show initialCandidates st (runCycles st cs (selectMarkCycle c.1 c.2.1 c.2.2 st db)) = []
      rw [hcycle]; exact hempty

/-- After an album-scoped reset, the album-filtered unseen pool contains the
whole joined corpus of that album. -/
lemma retry_album_nonempty {db : DB} (a : Int)
    (hcorpus : (joinRows db).filter (fun p => decide (p.1.album_id = a)) ≠ []) :
    unseenCandidates (reset_seen_status db (some a) false none none none none)
      (some a) none none none none ≠ [] := by
  obtain ⟨p, hp⟩ := List.exists_mem_of_ne_nil _ hcorpus
  rw [List.mem_filter] at hp
  have ha2 : p.1.album_id = a := by simpa using hp.2
  have hjr := @joinRows_of_media_map db
    (reset_seen_status db (some a) false none none none none)
    (fun m => if m.album_id = a then resetRow m else m)
    rfl rfl (fun m => by by_cases hm : m.album_id = a <;> simp [hm, resetRow])
  intro hemp
  have hmemF : ((if p.1.album_id = a then resetRow p.1 else p.1), p.2)
      ∈ joinRows (reset_seen_status db (some a) false none none none none) := by
    rw [hjr]
    exact List.mem_map_of_mem _ hp.1
  have hcond : unseenCond (some a) none none none none
      ((if p.1.album_id = a then resetRow p.1 else p.1), p.2) = true := by
    rw [if_pos ha2]
    simp [unseenCond, resetRow, ha2, rangeFilter]
  have hmm : ((if p.1.album_id = a then resetRow p.1 else p.1), p.2)
      ∈ unseenCandidates (reset_seen_status db (some a) false none none none none)
        (some a) none none none none :=
    List.mem_filter.mpr ⟨hmemF, hcond⟩
  rw [hemp] at hmm
  cases hmm

/-- After a date-range-scoped reset, the range-filtered unseen pool contains
the whole joined corpus of that range. -/
lemma retry_range_nonempty {db : DB} (sy sm ey em : Int)
    (hsy : sy ≠ 0) (hsm : sm ≠ 0) (hey : ey ≠ 0) (hem : em ≠ 0)
    (hcorpus : (joinRows db).filter (fun p =>
      rangeFilter (some sy) (some sm) (some ey) (some em) p.2.year p.2.month) ≠ []) :
    unseenCandidates
      (reset_seen_status db none true (some sy) (some sm) (some ey) (some em))
      none (some sy) (some sm) (some ey) (some em) ≠ [] := by
  obtain ⟨p, hp⟩ := List.exists_mem_of_ne_nil _ hcorpus
  rw [List.mem_filter] at hp
  have hdr : dateRangeHolds p.2.year p.2.month sy sm ey em = true := by
    have h2 := hp.2
    rw [rangeFilter_active sy sm ey em hsy hsm hey hem] at h2
    exact h2
  have hdbeq : reset_seen_status db none true (some sy) (some sm) (some ey) (some em) =
      { db with media := db.media.map (fun m =>
          if resetRangeCond db.albums m sy sm ey em then resetRow m else m) } := by
    unfold reset_seen_status
    dsimp only
    rw [if_pos ⟨hsy, hsm, hey, hem⟩]
  have hjr := @joinRows_of_media_map db
    (reset_seen_status db none true (some sy) (some sm) (some ey) (some em))
    (fun m => if resetRangeCond db.albums m sy sm ey em then resetRow m else m)
    (by rw [hdbeq]) (by rw [hdbeq])
    (fun m => by by_cases hm : resetRangeCond db.albums m sy sm ey em <;>
      simp [hm, resetRow])
  have hsnd := joinRows_snd_mem hp.1
  have hrc : resetRangeCond db.albums p.1 sy sm ey em = true := by
    rw [resetRangeCond, List.any_eq_true]
    exact ⟨p.2, hsnd.1, by simp [hsnd.2, hdr]⟩
  intro hemp
  have hmemF : ((if resetRangeCond db.albums p.1 sy sm ey em then resetRow p.1 else p.1), p.2)
      ∈ joinRows (reset_seen_status db none true (some sy) (some sm) (some ey) (some em)) := by
    rw [hjr]
    exact List.mem_map_of_mem _ hp.1
  have hcond : unseenCond none (some sy) (some sm) (some ey) (some em)
      ((if resetRangeCond db.albums p.1 sy sm ey em then resetRow p.1 else p.1), p.2)
      = true := by
    rw [if_pos hrc]
    simp only [unseenCond, resetRow]
    simp [hp.2]
  have hmm : ((if resetRangeCond db.albums p.1 sy sm ey em then resetRow p.1 else p.1), p.2)
      ∈ unseenCandidates
        (reset_seen_status db none true (some sy) (some sm) (some ey) (some em))
        none (some sy) (some sm) (some ey) (some em) :=
    List.mem_filter.mpr ⟨hmemF, hcond⟩
  rw [hemp] at hmm
  cases hmm

/-- After a global reset, the unfiltered unseen pool contains the whole
joined corpus. -/
lemma retry_all_nonempty {db : DB} (hcorpus : joinRows db ≠ []) :
    unseenCandidates (reset_seen_status db none false none none none none)
      none none none none none ≠ [] := by
  obtain ⟨p, hp⟩ := List.exists_mem_of_ne_nil _ hcorpus
  have hjr := @joinRows_of_media_map db
    (reset_seen_status db none false none none none none)
    resetRow rfl rfl (fun m => rfl)
  intro hemp
  have hmemF : (resetRow p.1, p.2)
      ∈ joinRows (reset_seen_status db none false none none none none) := by
    rw [hjr]
    exact List.mem_map_of_mem _ hp
  have hcond : unseenCond none none none none none (resetRow p.1, p.2) = true := by
    simp [unseenCond, resetRow, rangeFilter]
  have hmm : (resetRow p.1, p.2)
      ∈ unseenCandidates (reset_seen_status db none false none none none none)
        none none none none none :=
    List.mem_filter.mpr ⟨hmemF, hcond⟩
  rw [hemp] at hmm
  cases hmm

/-- C1: given as many consecutive select-then-mark cycles as there are
unseen items under the active filters, no cycle resets anything; then the
next _get_next_media finds its initial query empty and performs exactly one
scoped reset followed by exactly one re-query, with precedence album scope,
then date-range scope, then everything — and it returns a non-null item
provided the joined corpus of the chosen scope is non-empty. -/
theorem claim_C1_selectNext_exhaustion (st : CoordState) (db : DB)
    (cs : List (Nat × Nat × Nat)) (c1 c2 : Nat)
    (hok : DBok db)
    (hN : (initialCandidates st db).length = cs.length) :
    NoResetRun st cs db
    ∧ initialCandidates st (runCycles st cs db) = []
    ∧ (∀ a : Int, st.album_filter = some a →
        get_next_media c1 c2 st (runCycles st cs db) =
          (reset_seen_status (runCycles st cs db) (some a) false none none none none,
           get_random_unseen_media c2
             (reset_seen_status (runCycles st cs db) (some a) false none none none none)
             (some a) none none none none))
    ∧ (st.album_filter = none → st.time_range.active = true →
        get_next_media c1 c2 st (runCycles st cs db) =
          (reset_seen_status (runCycles st cs db) none true
             st.time_range.start_year st.time_range.start_month
             st.time_range.end_year st.time_range.end_month,
           get_random_unseen_media c2
             (reset_seen_status (runCycles st cs db) none true
               st.time_range.start_year st.time_range.start_month
               st.time_range.end_year st.time_range.end_month)
             none st.time_range.start_year st.time_range.start_month
             st.time_range.end_year st.time_range.end_month))
    ∧ (st.album_filter = none → st.time_range.active = false →
        get_next_media c1 c2 st (runCycles st cs db) =
          (reset_seen_status (runCycles st cs db) none false none none none none,
           get_random_unseen_media c2
             (reset_seen_status (runCycles st cs db) none false none none none none)
             none none none none none))
    ∧ (scopeCorpus st (runCycles st cs db) ≠ [] →
        (get_next_media c1 c2 st (runCycles st cs db)).2.isSome = true) := by
  obtain ⟨hnr, hok2, hempty⟩ := runCycles_exhausts cs db hok hN
  have hpick : get_random_unseen_media c1 (runCycles st cs db) st.album_filter
      st.time_range.start_year st.time_range.start_month
      st.time_range.end_year st.time_range.end_month = none :=
    get_random_unseen_media_eq_none.mpr hempty
  refine ⟨hnr, hempty, ?_, ?_, ?_, ?_⟩
  · intro a haf
    unfold get_next_media
    rw [hpick, haf]
  · intro haf hact
    unfold get_next_media
    rw [hpick, haf]
    simp only [hact, if_true]
  · intro haf hact
    unfold get_next_media
    rw [hpick, haf]
    simp only [hact, Bool.false_eq_true, if_false]
  · intro hcorp
    cases haf : st.album_filter with
    | some a =>
      have hcorp2 : (joinRows (runCycles st cs db)).filter
          (fun p => decide (p.1.album_id = a)) ≠ [] := by
        rw [scopeCorpus, haf] at hcorp
        exact hcorp
      obtain ⟨p, hp⟩ := @get_random_unseen_media_isSome c2 _ _ _ _ _ _
        (retry_album_nonempty a hcorp2)
      have heq : get_next_media c1 c2 st (runCycles st cs db) =
          (reset_seen_status (runCycles st cs db) (some a) false none none none none,
           get_random_unseen_media c2
             (reset_seen_status (runCycles st cs db) (some a) false none none none none)
             (some a) none none none none) := by
        unfold get_next_media
        rw [hpick, haf]
      rw [heq, hp]
      rfl
    | none =>
      cases hact : st.time_range.active with
      | true =>
        obtain ⟨sy, hsy⟩ : ∃ v, st.time_range.start_year = some v := by
          rcases hv : st.time_range.start_year with _ | v
          · rw [TimeRange.active, rangeParamsActive, hv] at hact; simp [truthyI] at hact
          · exact ⟨v, rfl⟩
        obtain ⟨sm, hsm⟩ : ∃ v, st.time_range.start_month = some v := by
          rcases hv : st.time_range.start_month with _ | v
          · rw [TimeRange.active, rangeParamsActive, hv] at hact; simp [truthyI] at hact
          · exact ⟨v, rfl⟩
        obtain ⟨ey, hey⟩ : ∃ v, st.time_range.end_year = some v := by
          rcases hv : st.time_range.end_year with _ | v
          · rw [TimeRange.active, rangeParamsActive, hv] at hact; simp [truthyI] at hact
          · exact ⟨v, rfl⟩
        obtain ⟨em, hem⟩ : ∃ v, st.time_range.end_month = some v := by
          rcases hv : st.time_range.end_month with _ | v
          · rw [TimeRange.active, rangeParamsActive, hv] at hact; simp [truthyI] at hact
          · exact ⟨v, rfl⟩
        have hnz : sy ≠ 0 ∧ sm ≠ 0 ∧ ey ≠ 0 ∧ em ≠ 0 := by
          rw [TimeRange.active, rangeParamsActive, hsy, hsm, hey, hem] at hact
          simp only [truthyI, Bool.and_eq_true, decide_eq_true_eq] at hact
          exact ⟨hact.1.1.1, hact.1.1.2, hact.1.2, hact.2⟩
        have hcorp2 : (joinRows (runCycles st cs db)).filter (fun p =>
            rangeFilter (some sy) (some sm) (some ey) (some em) p.2.year p.2.month)
            ≠ [] := by
          rw [scopeCorpus, haf, if_pos hact] at hcorp
          rw [hsy, hsm, hey, hem] at hcorp
          exact hcorp
        obtain ⟨p, hp⟩ := @get_random_unseen_media_isSome c2 _ _ _ _ _ _
          (retry_range_nonempty sy sm ey em hnz.1 hnz.2.1 hnz.2.2.1 hnz.2.2.2 hcorp2)
        have heq : get_next_media c1 c2 st (runCycles st cs db) =
            (reset_seen_status (runCycles st cs db) none true
               (some sy) (some sm) (some ey) (some em),
             get_random_unseen_media c2
               (reset_seen_status (runCycles st cs db) none true
                 (some sy) (some sm) (some ey) (some em))
               none (some sy) (some sm) (some ey) (some em)) := by
          unfold get_next_media
          rw [hpick, haf]
          simp only [hact, if_true]
          rw [hsy, hsm, hey, hem]
        rw [heq, hp]
        rfl
      | false =>
        have hcorp2 : joinRows (runCycles st cs db) ≠ [] := by
          rw [scopeCorpus, haf, if_neg (by simp [hact])] at hcorp
          exact hcorp
        obtain ⟨p, hp⟩ := @get_random_unseen_media_isSome c2 _ _ _ _ _ _
          (retry_all_nonempty hcorp2)
        have heq : get_next_media c1 c2 st (runCycles st cs db) =
            (reset_seen_status (runCycles st cs db) none false none none none none,
             get_random_unseen_media c2
               (reset_seen_status (runCycles st cs db) none false none none none none)
               none none none none none) := by
          unfold get_next_media
          rw [hpick, haf]
          simp only [hact, Bool.false_eq_true, if_false]
        rw [heq, hp]
        rfl

/-- Coordinator state for the C1 witness: album filter on album 1, no time
range. -/
def stC1 : CoordState := { album_filter := some 1, time_range := TimeRange.clear }

/-- Witness for C1 at a concrete run: two unseen items, two cycles, then the
third call resets the album scope and returns a non-null item. -/
theorem claim_C1_witness :
    (get_next_media 0 0 stC1 (runCycles stC1 [(0, 0, 10), (0, 0, 11)] dbC5)).2.isSome
      = true :=
  (claim_C1_selectNext_exhaustion stC1 dbC5 [(0, 0, 10), (0, 0, 11)] 0 0
    ⟨by decide, by decide⟩ (by decide)).2.2.2.2.2 (by decide)

/-! ## C7: album metadata parsing -/

/-- The declarative reading of ALBUM_PATTERN with Python re.match semantics:
the string decomposes as four digits, a separator from [-_], two digits,
another separator from [-_], and a remainder matched by (.*)$ — the dot does
not cross a newline and $ also matches just before one final trailing
newline; the year and month are the decimal values of the digit groups. -/
def RegexMatchOut (s : String) (y m : Int) (g3 : String) : Prop :=
  ∃ (d1 d2 d3 d4 s1 e1 e2 s2 : Char) (rest : List Char),
    s.data = [d1, d2, d3, d4, s1, e1, e2, s2] ++ rest
    ∧ d1.isDigit = true ∧ d2.isDigit = true ∧ d3.isDigit = true ∧ d4.isDigit = true
    ∧ isSepChar s1 = true
    ∧ e1.isDigit = true ∧ e2.isDigit = true
    ∧ isSepChar s2 = true
    ∧ ((rest = g3.data ∧ '\n' ∉ rest) ∨ (rest = g3.data ++ ['\n'] ∧ '\n' ∉ g3.data))
    ∧ y = 1000 * digitVal d1 + 100 * digitVal d2 + 10 * digitVal d3 + digitVal d4
    ∧ m = 10 * digitVal e1 + digitVal e2

lemma matchTailGroup_eq_some {rest g : List Char} :
    matchTailGroup rest = some g ↔
      ((rest = g ∧ '\n' ∉ rest) ∨ (rest = g ++ ['\n'] ∧ '\n' ∉ g)) := by
  unfold matchTailGroup
  by_cases h1 : rest.contains '\n' = false
  · rw [if_pos h1]
    have hnotin : '\n' ∉ rest := by simpa using h1
    constructor
    · intro h
      exact Or.inl ⟨Option.some.inj h, hnotin⟩
    · rintro (⟨rfl, _⟩ | ⟨rfl, _⟩)
      · rfl
      · exact absurd (by simp : '\n' ∈ g ++ ['\n']) hnotin
  · rw [if_neg h1]
    rw [Bool.not_eq_false] at h1
    have hin : '\n' ∈ rest := by simpa using h1
    split
    · next hcond =>
      simp only [Bool.and_eq_true, decide_eq_true_eq] at hcond
      obtain ⟨hlast, hdrop⟩ := hcond
      have hrest : rest.dropLast ++ ['\n'] = rest :=
        List.dropLast_append_getLast? _ hlast
      have hnod : '\n' ∉ rest.dropLast := by simpa using hdrop
      constructor
      · intro h
        obtain rfl : rest.dropLast = g := Option.some.inj h
        exact Or.inr ⟨hrest.symm, hnod⟩
      · rintro (⟨rfl, habs⟩ | ⟨hg, _⟩)
        · exact absurd hin habs
        · subst hg
          rw [List.dropLast_concat]
    · next hcond =>
      simp only [Bool.and_eq_true, decide_eq_true_eq, not_and] at hcond
      constructor
      · intro h; cases h
      · rintro (⟨rfl, habs⟩ | ⟨hg, hnod⟩)
        · exact absurd hin habs
        · exfalso
          subst hg
          have h2 := hcond (List.getLast?_concat g)
          rw [List.dropLast_concat] at h2
          simp only [Bool.not_eq_false] at h2
          have : '\n' ∈ g := by simpa using h2
          exact hnod this

/-- The executable embedding of ALBUM_PATTERN.match agrees with the
declarative pattern reading. -/
lemma parseAlbumName_iff (s : String) (y m : Int) (g3 : String) :
    parseAlbumName s = some (y, m, g3) ↔ RegexMatchOut s y m g3 := by
  obtain ⟨l⟩ := s
  constructor
  · intro h
    rw [parseAlbumName] at h
    rcases l with _ | ⟨d1, l⟩; · simp [parseAlbumChars] at h
    rcases l with _ | ⟨d2, l⟩; · simp [parseAlbumChars] at h
    rcases l with _ | ⟨d3, l⟩; · simp [parseAlbumChars] at h
    rcases l with _ | ⟨d4, l⟩; · simp [parseAlbumChars] at h
    rcases l with _ | ⟨s1, l⟩; · simp [parseAlbumChars] at h
    rcases l with _ | ⟨e1, l⟩; · simp [parseAlbumChars] at h
    rcases l with _ | ⟨e2, l⟩; · simp [parseAlbumChars] at h
    rcases l with _ | ⟨s2, rest⟩; · simp [parseAlbumChars] at h
    rw [parseAlbumChars] at h
    split at h
    case isFalse => cases h
    case isTrue hcond =>
      simp only [Bool.and_eq_true] at hcond
      obtain ⟨⟨⟨⟨⟨⟨⟨h1, h2⟩, h3⟩, h4⟩, h5⟩, h6⟩, h7⟩, h8⟩ := hcond
      cases hmt : matchTailGroup rest with
      | none => rw [hmt] at h; cases h
      | some g =>
        rw [hmt] at h
        simp only [Option.some.injEq, Prod.mk.injEq] at h
        obtain ⟨hy, hm, hg⟩ := h
        refine ⟨d1, d2, d3, d4, s1, e1, e2, s2, rest, rfl,
          h1, h2, h3, h4, h5, h6, h7, h8, ?_, hy.symm, hm.symm⟩
        have hht := matchTailGroup_eq_some.mp hmt
        rw [← hg]
        simpa using hht
  · rintro ⟨d1, d2, d3, d4, s1, e1, e2, s2, rest, hs, h1, h2, h3, h4, h5, h6, h7, h8,
      htail, hy, hm⟩
    have hl : l = d1 :: d2 :: d3 :: d4 :: s1 :: e1 :: e2 :: s2 :: rest := hs
    subst hl
    rw [parseAlbumName, parseAlbumChars]
    simp only [h1, h2, h3, h4, h5, h6, h7, h8, Bool.and_self, if_true]
    have hmt : matchTailGroup rest = some g3.data := matchTailGroup_eq_some.mpr (by
      simpa using htail)
    rw [hmt, hy, hm]

/-- C7: a folder base name matching the album pattern yields the album
fields (name = third group, year = first group, month = second group); a
non-matching name yields the full folder name with NULL year and month — in
particular family_photos. -/
theorem claim_C7_album_name_parsing :
    (∀ (s : String) (y m : Int) (g3 : String),
      parseAlbumName s = some (y, m, g3) ↔ RegexMatchOut s y m g3)
    ∧ (∀ (s : String) (y m : Int) (g3 : String),
      RegexMatchOut s y m g3 → albumFields s = (g3, some y, some m))
    ∧ (∀ s : String, (¬ ∃ y m g3, RegexMatchOut s y m g3) →
      albumFields s = (s, none, none))
    ∧ albumFields "family_photos" = ("family_photos", none, none) := by
  refine ⟨parseAlbumName_iff, ?_, ?_, by rfl⟩
  · intro s y m g3 h
    have hp := (parseAlbumName_iff s y m g3).mpr h
    rw [albumFields, hp]
  · intro s h
    cases hp : parseAlbumName s with
    | none => rw [albumFields, hp]
    | some r =>
      exfalso
      exact h ⟨r.1, r.2.1, r.2.2, (parseAlbumName_iff s r.1 r.2.1 r.2.2).mp (by
        rw [hp])⟩

/-- A seen item in a dated album (2019, 5), outside the active range below. -/
def aOld : Album :=
  { id := 1, path := "/p1", name := "old", year := some 2019, month := some 5, created_at := 0 }

def mOld : MediaItem :=
  { id := 1, album_id := 1, filename := "x.jpg", extension := ".jpg",
    is_video := false, seen := true, last_shown := some 10 }

/-- A seen item in a dated album (2021, 6), inside the active range below. -/
def aIn : Album :=
  { id := 2, path := "/p2", name := "in", year := some 2021, month := some 6, created_at := 0 }

def mIn : MediaItem :=
  { id := 2, album_id := 2, filename := "y.jpg", extension := ".jpg",
    is_video := false, seen := true, last_shown := some 11 }

/-- Both items seen: the album-filtered unseen pool is exhausted. -/
def dbBoth : DB :=
  { albums := [aOld, aIn], media := [mOld, mIn], nextAlbumId := 3, nextMediaId := 3 }

/-- Album filter on album 1 and a full date range [(2020,1), (2022,12)]. -/
def stBoth : CoordState :=
  { album_filter := some 1, time_range := ⟨some 2020, some 1, some 2022, some 12⟩ }

/-- C9: when an album filter is active and the initial query is empty, the
retry path resets only that album and re-queries with only the album filter
(the date-range arguments are not passed to the retry query); consequently,
with both filters active, selectNext can return an item of the filtered album
whose (year, month) lies outside the active date range, as the concrete run
below shows — and the seen item of the in-range album 2 is left untouched by
the reset. -/
theorem claim_C9_album_reset_ignores_range :
    (∀ (db : DB) (st : CoordState) (a : Int) (c1 c2 : Nat),
      st.album_filter = some a →
      get_random_unseen_media c1 db st.album_filter
        st.time_range.start_year st.time_range.start_month
        st.time_range.end_year st.time_range.end_month = none →
      get_next_media c1 c2 st db =
        (reset_seen_status db (some a) false none none none none,
         get_random_unseen_media c2 (reset_seen_status db (some a) false none none none none)
           (some a) none none none none))
    ∧ stBoth.album_filter = some 1
    ∧ stBoth.time_range.active = true
    ∧ get_random_unseen_media 0 dbBoth stBoth.album_filter
        stBoth.time_range.start_year stBoth.time_range.start_month
        stBoth.time_range.end_year stBoth.time_range.end_month = none
    ∧ (get_next_media 0 0 stBoth dbBoth).2 = some (resetRow mOld, aOld)
    ∧ dateRangeHolds aOld.year aOld.month 2020 1 2022 12 = false
    ∧ (get_next_media 0 0 stBoth dbBoth).1.media = [resetRow mOld, mIn]
    ∧ mIn.seen = true := by
  refine ⟨?_, by decide, by decide, by decide, by decide, by decide, by decide, by decide⟩
  intro db st a c1 c2 haf hpick
  rw [get_next_media, hpick, haf]

/-! ## C3: an album with zero qualifying media files is not counted -/

/-- The default scanner configuration of the scenario: the default extension
allowlists from const.py and the exclusion pattern regex of a leading dot
(which matches neither directory name of the tree). -/
def cfgScenario : ScannerCfg :=
  { image_extensions := [".jpg", ".jpeg", ".png", ".gif", ".bmp", ".webp"],
    video_extensions := [".mp4", ".mov", ".avi", ".mkv", ".webm"],
    exclude := fun s => s.data.head? = some '.' }

/-- The scenario tree: /media with the album folder 2020-01-vacation holding
beach.jpg, sunset.jpg and clip.mp4, and the empty leaf directory notes. -/
def mediaTree : FSTree :=
  .node "media"
    [ .node "2020-01-vacation" [] ["beach.jpg", "sunset.jpg", "clip.mp4"],
      .node "notes" [] [] ] []

/-- The scan of the scenario root specification /media/** on a fresh store. -/
def scanScenario : DB × Nat × Nat :=
  scan cfgScenario 0 [("/media/", mediaTree)] ["/media/**"] emptyDB

/-- The persisted row of the empty album. -/
def notesRow : Album :=
  { id := 2, path := "/media/notes", name := "notes", year := none, month := none,
    created_at := 0 }

/-- C3 (counterexample): the claim expects scan() = (albumCount 2, mediaCount 3)
for the scenario, but the code appends an album to the result list only when
its media list is non-empty (if album_info and media_files), so the empty
album notes is not counted and scan() returns (1, 3). -/
theorem claim_C3_counterexample :
    scanScenario.2 = (1, 3) ∧ scanScenario.2.1 ≠ 2 := by
  constructor
  · rfl
  · decide

/-- C3 (amended): for the scenario, scan() returns (albumCount 1, mediaCount 3);
the empty album is processed — its row persists in the store with its parsed
metadata and zero child media rows — but it is not counted as a processed
album. -/
theorem claim_C3_empty_album_not_counted :
    scanScenario.2 = (1, 3)
    ∧ get_album_by_path scanScenario.1 "/media/notes" = some notesRow
    ∧ (scanScenario.1.media.filter (fun m => m.album_id = notesRow.id)).length = 0
    ∧ get_media_count scanScenario.1 = 3
    ∧ get_album_by_path scanScenario.1 "/media/2020-01-vacation" =
        some { id := 1, path := "/media/2020-01-vacation", name := "vacation",
               year := some 2020, month := some 1, created_at := 0 } := by
  refine ⟨rfl, rfl, rfl, rfl, rfl⟩

/-- Witness for C4 at the concrete scenario filesystem. -/
theorem claim_C4_witness :
    (scan cfgScenario 0 [("/media/", mediaTree)] ["/media/**"]
      (scan cfgScenario 0 [("/media/", mediaTree)] ["/media/**"] emptyDB).1).1
    = (scan cfgScenario 0 [("/media/", mediaTree)] ["/media/**"] emptyDB).1 :=
  (claim_C4_scan_idempotent cfgScenario 0 0 [("/media/", mediaTree)] ["/media/**"]
    emptyDB ⟨by decide, by decide, by decide⟩).1

/-! ## C8: the soft-fail contract of the Store boundary -/

/-- C8: every Store operation converts a storage fault into its safe default
with the transaction rolled back: the upserts return the sentinel id -1 with
the state unchanged, the counts return 0, the point lookups and both pick
operations return null, and markSeen/resetSeen are no-ops. -/
theorem claim_C8_soft_fail_contract :
    (∀ (db : DB) (ts : Nat) (p n : String) (y m : Option Int),
      add_album_f true db ts p n y m = (db, -1))
    ∧ (∀ (db : DB) (a : Int) (f e : String) (v : Bool),
      add_media_file_f true db a f e v = (db, -1))
    ∧ (∀ db : DB, get_media_count_f true db = 0)
    ∧ (∀ (db : DB) (a : Option Int), get_unseen_count_f true db a = 0)
    ∧ (∀ (c : Nat) (db : DB) (aid sy sm ey em : Option Int),
      get_random_unseen_media_f true c db aid sy sm ey em = none)
    ∧ (∀ (db : DB) (cid aid sy sm ey em : Option Int),
      get_previously_shown_media_f true db cid aid sy sm ey em = none)
    ∧ (∀ (db : DB) (i : Int), get_album_by_id_f true db i = none)
    ∧ (∀ (db : DB) (p : String), get_album_by_path_f true db p = none)
    ∧ (∀ (db : DB) (i : Int), get_media_by_id_f true db i = none)
    ∧ (∀ (db : DB) (i : Int) (ts : Nat), mark_media_as_seen_f true db i ts = db)
    ∧ (∀ (db : DB) (aid : Option Int) (tr : Bool) (sy sm ey em : Option Int),
      reset_seen_status_f true db aid tr sy sm ey em = db) :=
  ⟨fun _ _ _ _ _ _ => rfl, fun _ _ _ _ _ => rfl, fun _ => rfl, fun _ _ => rfl,
   fun _ _ _ _ _ _ _ => rfl, fun _ _ _ _ _ _ _ => rfl, fun _ _ => rfl,
   fun _ _ => rfl, fun _ _ => rfl, fun _ _ _ => rfl, fun _ _ _ _ _ _ _ => rfl⟩

end PicFrame
